import Mathlib

/-!
Verification of the OutSource backend relationship/authorization core.

The Python services, repositories and SQLAlchemy models under
`src/backend/app` are embedded shallowly:

* every SQLAlchemy table becomes a list of row structures inside a
  database structure; `query(...).first()` becomes `List.find?`, and
  `UniqueConstraint` columns are modelled inside the insert functions,
  which return `PyError.integrityError` exactly when the constrained
  column tuple is already present (MySQL backend, constraints enforced);
  likewise the `ForeignKey` columns of the schema (no cascade, RESTRICT)
  are modelled inside the delete functions of the referenced tables,
  which return `PyError.integrityError` exactly when a row of the
  referencing association table still points at the deleted row;
* every repository method that calls `db.commit()` is one durable write;
  service methods therefore return `(Except PyError result) × database`,
  where the returned database reflects every commit performed before an
  exception was raised (a raised exception does not undo earlier commits);
* `HTTPException(status_code, detail)` becomes `PyError.http`, a Python
  `AttributeError` becomes `PyError.attributeError`, and a storage
  uniqueness violation becomes `PyError.integrityError`;
* `datetime` values are embedded as integers (only their ordering is used
  by the code), user rows as their integer ids.
-/

namespace OutSource

/-- Failure outcomes observable from a service call: `http` is a raised
`HTTPException(status_code, detail)`, `attributeError` a Python attribute
lookup failure, `integrityError` a storage uniqueness-constraint violation
surfaced at commit time (named by the violated constraint). -/
inductive PyError where
  | http (statusCode : Nat) (detail : String)
  | attributeError (name : String)
  | integrityError (constraint : String)
deriving DecidableEq

instance {ε α : Type} [DecidableEq ε] [DecidableEq α] : DecidableEq (Except ε α) := fun a b =>
  match a, b with
  | .error e, .error f =>
    if h : e = f then isTrue (by rw [h]) else isFalse (by simp [h])
  | .error _, .ok _ => isFalse (by simp)
  | .ok _, .error _ => isFalse (by simp)
  | .ok x, .ok y =>
    if h : x = y then isTrue (by rw [h]) else isFalse (by simp [h])

/-- Removes the first element satisfying `p`, as `session.delete(row)` on the
row found by `query(...).first()`. -/
def removeFirst {α : Type} (p : α → Bool) : List α → List α
  | [] => []
  | x :: xs => if p x then xs else x :: removeFirst p xs

/-- Row of the `friend_requests` table (`models/associations.py`,
`FriendRequests`): ordered pair plus a status string. -/
structure FriendRequestRow where
  id : Nat
  outgoing_user_id : Nat
  incoming_user_id : Nat
  status : String
deriving DecidableEq

/-- Row of the `friends` table (`models/associations.py`, `Friends`): an
undirected friendship stored as two directed columns. -/
structure FriendsRow where
  id : Nat
  user1_id : Nat
  user2_id : Nat
deriving DecidableEq

/-- Store state for the friendship subsystem: the `users`, `friend_requests`
and `friends` tables, plus the autoincrement counter shared by new rows. -/
structure FriendDB where
  users : List Nat
  requests : List FriendRequestRow
  friends : List FriendsRow
  nextId : Nat
deriving DecidableEq

/-- Updates the status of every row with primary key `request_id` (the key is
unique in the store, so at most one row changes). -/
def setStatusById (request_id : Nat) (status : String) (l : List FriendRequestRow) :
    List FriendRequestRow :=
  l.map fun q => if q.id == request_id then { q with status := status } else q

/-- Row status test used throughout the service layer. -/
def reqPending (r : FriendRequestRow) : Bool :=
  r.status == "pending"

/-- Existence of a pending row for the exact ordered pair in a request
table. -/
def pendingIn (l : List FriendRequestRow) (a b : Nat) : Bool :=
  l.any fun r => r.outgoing_user_id == a && r.incoming_user_id == b && reqPending r

/-- Existence of a friendship row for the pair, in either column order. -/
def friendsIn (l : List FriendsRow) (user1_id user2_id : Nat) : Bool :=
  l.any fun f =>
    (f.user1_id == user1_id && f.user2_id == user2_id) ||
    (f.user1_id == user2_id && f.user2_id == user1_id)

/-- UserRepository.get_by_id restricted to existence: the service only tests
the result for truthiness. -/
def userExists (db : FriendDB) (user_id : Nat) : Bool :=
  db.users.contains user_id

/-- FriendRequestRepository.get_by_id. -/
def FriendRequestRepository.get_by_id (db : FriendDB) (request_id : Nat) :
    Option FriendRequestRow :=
  db.requests.find? fun r => r.id == request_id

/-- FriendRequestRepository.get_request: first row with the exact ordered
pair. -/
def FriendRequestRepository.get_request (db : FriendDB) (outgoing_user_id incoming_user_id : Nat) :
    Option FriendRequestRow :=
  db.requests.find? fun r =>
    r.outgoing_user_id == outgoing_user_id && r.incoming_user_id == incoming_user_id

/-- FriendRequestRepository.create_request: inserts a `pending` row; the
`unique_friend_request` constraint on the ordered pair makes the commit fail
when a row with the same ordered pair already exists. -/
def FriendRequestRepository.create_request (db : FriendDB) (outgoing_user_id incoming_user_id : Nat) :
    Except PyError (FriendRequestRow × FriendDB) :=
  if (FriendRequestRepository.get_request db outgoing_user_id incoming_user_id).isSome then
    .error (.integrityError "unique_friend_request")
  else
    let row : FriendRequestRow :=
      ⟨db.nextId, outgoing_user_id, incoming_user_id, "pending"⟩
    .ok (row, { db with requests := db.requests ++ [row], nextId := db.nextId + 1 })

/-- FriendRequestRepository.update_status: looks the row up by id, sets its
status and commits. -/
def FriendRequestRepository.update_status (db : FriendDB) (request_id : Nat) (status : String) :
    Option FriendRequestRow × FriendDB :=
  match FriendRequestRepository.get_by_id db request_id with
  | none => (none, db)
  | some r =>
      (some { r with status := status },
       { db with requests := setStatusById request_id status db.requests })

/-- FriendRequestRepository.delete_request. -/
def FriendRequestRepository.delete_request (db : FriendDB) (request_id : Nat) :
    Bool × FriendDB :=
  match FriendRequestRepository.get_by_id db request_id with
  | none => (false, db)
  | some _ => (true, { db with requests := removeFirst (fun r => r.id == request_id) db.requests })

/-- FriendRepository.are_friends: matches the pair in either column order. -/
def FriendRepository.are_friends (db : FriendDB) (user1_id user2_id : Nat) : Bool :=
  friendsIn db.friends user1_id user2_id

/-- FriendRepository.add_friendship: inserts a row; the `unique_friendship`
constraint is on the ordered column pair `(user1_id, user2_id)`. -/
def FriendRepository.add_friendship (db : FriendDB) (user1_id user2_id : Nat) :
    Except PyError (FriendsRow × FriendDB) :=
  if db.friends.any fun f => f.user1_id == user1_id && f.user2_id == user2_id then
    .error (.integrityError "unique_friendship")
  else
    let row : FriendsRow := ⟨db.nextId, user1_id, user2_id⟩
    .ok (row, { db with friends := db.friends ++ [row], nextId := db.nextId + 1 })

/-- FriendRepository.remove_friendship: deletes the first row matching the
pair in either order. -/
def FriendRepository.remove_friendship (db : FriendDB) (user1_id user2_id : Nat) :
    Bool × FriendDB :=
  let remaining := removeFirst
    (fun f =>
      (f.user1_id == user1_id && f.user2_id == user2_id) ||
      (f.user1_id == user2_id && f.user2_id == user1_id))
    db.friends
  if FriendRepository.are_friends db user1_id user2_id then
    (true, { db with friends := remaining })
  else
    (false, db)

/-- FriendRequestService.create_friend_request (`friend_request_service.py`).
The returned store reflects the commits performed before any raise. -/
def FriendRequestService.create_friend_request (db : FriendDB) (current_user_id recipient_id : Nat) :
    Except PyError FriendRequestRow × FriendDB :=
  if !userExists db recipient_id then
    (.error (.http 404 "Recipient user not found"), db)
  else if current_user_id == recipient_id then
    (.error (.http 400 "Cannot send friend request to yourself"), db)
  else if FriendRepository.are_friends db current_user_id recipient_id then
    (.error (.http 400 "Already friends with this user"), db)
  else
    let existing_request := FriendRequestRepository.get_request db current_user_id recipient_id
    let reverse_request := FriendRequestRepository.get_request db recipient_id current_user_id
    if existing_request.any fun r => r.status == "pending" then
      (.error (.http 400 "Friend request already sent"), db)
    else if reverse_request.any fun r => r.status == "pending" then
      (.error (.http 400 "This user has already sent you a friend request"), db)
    else
      match FriendRequestRepository.create_request db current_user_id recipient_id with
      | .error e => (.error e, db)
      | .ok (row, db2) => (.ok row, db2)

/-- FriendRequestService.accept_friend_request: looks the request up by the
ordered pair `(sender, accepter)`, commits the status update, then commits
the friendship insert; the two commits are separate transactions, so a raise
from the second leaves the first in place. -/
def FriendRequestService.accept_friend_request (db : FriendDB) (current_user_id sender_id : Nat) :
    Except PyError String × FriendDB :=
  match FriendRequestRepository.get_request db sender_id current_user_id with
  | none => (.error (.http 404 "Friend request not found"), db)
  | some friend_request =>
    if friend_request.status != "pending" then
      (.error (.http 400 "Friend request is not pending"), db)
    else
      let step1 := FriendRequestRepository.update_status db friend_request.id "accepted"
      match FriendRepository.add_friendship step1.2 sender_id current_user_id with
      | .error e => (.error e, step1.2)
      | .ok (_, db2) => (.ok "Friend request accepted", db2)

/-- Durable store contents when execution of accept_friend_request on a
pending request stops between the two commits: after
`friend_request_repository.update_status` has committed and before
`friend_repository.add_friendship` commits. `none` when the operation would
have raised before the first commit. -/
def FriendRequestService.accept_friend_request_crash_mid (db : FriendDB)
    (current_user_id sender_id : Nat) : Option FriendDB :=
  match FriendRequestRepository.get_request db sender_id current_user_id with
  | none => none
  | some friend_request =>
    if friend_request.status != "pending" then none
    else some (FriendRequestRepository.update_status db friend_request.id "accepted").2

/-- FriendRequestService.reject_friend_request. -/
def FriendRequestService.reject_friend_request (db : FriendDB) (current_user_id request_id : Nat) :
    Except PyError String × FriendDB :=
  match FriendRequestRepository.get_by_id db request_id with
  | none => (.error (.http 404 "Friend request not found"), db)
  | some friend_request =>
    if friend_request.incoming_user_id != current_user_id then
      (.error (.http 403 "You can only reject requests sent to you"), db)
    else if friend_request.status != "pending" then
      (.error (.http 400 "Friend request is not pending"), db)
    else
      (.ok "Friend request rejected",
       (FriendRequestRepository.update_status db request_id "rejected").2)

/-- FriendRequestService.cancel_friend_request. -/
def FriendRequestService.cancel_friend_request (db : FriendDB) (current_user_id request_id : Nat) :
    Except PyError String × FriendDB :=
  match FriendRequestRepository.get_by_id db request_id with
  | none => (.error (.http 404 "Friend request not found"), db)
  | some friend_request =>
    if friend_request.outgoing_user_id != current_user_id then
      (.error (.http 403 "You can only cancel requests you sent"), db)
    else if friend_request.status != "pending" then
      (.error (.http 400 "Friend request is not pending"), db)
    else
      (.ok "Friend request cancelled",
       (FriendRequestRepository.delete_request db request_id).2)

/-- FriendRequestService.unfriend. -/
def FriendRequestService.unfriend (db : FriendDB) (current_user_id friend_id : Nat) :
    Except PyError String × FriendDB :=
  if !userExists db friend_id then
    (.error (.http 404 "User not found"), db)
  else if !FriendRepository.are_friends db current_user_id friend_id then
    (.error (.http 400 "You are not friends with this user"), db)
  else
    (.ok "Friendship removed",
     (FriendRepository.remove_friendship db current_user_id friend_id).2)

/-- Caller-initiated operations of the friendship subsystem. -/
inductive FriendOp where
  | send (sender recipient : Nat)
  | accept (accepter sender : Nat)
  | reject (caller request_id : Nat)
  | cancel (caller request_id : Nat)
  | unfriend (caller other : Nat)

/-- Store state after a completed call (successful or raising): the second
component returned by the service. -/
def applyFriendOp (db : FriendDB) : FriendOp → FriendDB
  | .send s r => (FriendRequestService.create_friend_request db s r).2
  | .accept a s => (FriendRequestService.accept_friend_request db a s).2
  | .reject c rid => (FriendRequestService.reject_friend_request db c rid).2
  | .cancel c rid => (FriendRequestService.cancel_friend_request db c rid).2
  | .unfriend c o => (FriendRequestService.unfriend db c o).2

/-- Fresh store: a user table and no association rows. -/
def initFriendDB (users : List Nat) : FriendDB :=
  ⟨users, [], [], 1⟩

/-- Stores reachable from a fresh store through completed service calls. -/
inductive FriendReachable : FriendDB → Prop where
  | init (users : List Nat) : FriendReachable (initFriendDB users)
  | step {db : FriendDB} (op : FriendOp) :
      FriendReachable db → FriendReachable (applyFriendOp db op)

/-- Existence of a pending request for the exact ordered pair. -/
def pendingReq (db : FriendDB) (a b : Nat) : Bool :=
  pendingIn db.requests a b

/-- Status of the first request row for the ordered pair. -/
def requestStatusIs (db : FriendDB) (outgoing_user_id incoming_user_id : Nat) (s : String) : Bool :=
  (FriendRequestRepository.get_request db outgoing_user_id incoming_user_id).any
    fun r => r.status == s

/-- Consistency invariant of the friendship store: at most one request row
per ordered pair, no two simultaneous pending requests between the two
orderings of a pair, and no friendship coexisting with a pending request. -/
structure FriendInv (db : FriendDB) : Prop where
  pairUnique : db.requests.Pairwise fun r q =>
    ¬(r.outgoing_user_id = q.outgoing_user_id ∧ r.incoming_user_id = q.incoming_user_id)
  noMutual : ∀ r ∈ db.requests, reqPending r = true →
    pendingReq db r.incoming_user_id r.outgoing_user_id = false
  notFriendsWhenPending : ∀ r ∈ db.requests, reqPending r = true →
    FriendRepository.are_friends db r.outgoing_user_id r.incoming_user_id = false

/-- Row of the `circles` table (`models/circle.py`). -/
structure Circle where
  id : Nat
  name : String
  public : Bool
  owner : Nat
deriving DecidableEq

/-- Row of the `circle_membership` table (`models/associations.py`,
`CircleMembership`). -/
structure CircleMembershipRow where
  id : Nat
  user_id : Nat
  circle_id : Nat
deriving DecidableEq

/-- Store state for the circle subsystem: `users`, `circles` and
`circle_membership` tables with their autoincrement counters. -/
structure CircleDB where
  users : List Nat
  circles : List Circle
  memberships : List CircleMembershipRow
  nextCircleId : Nat
  nextMembershipId : Nat
deriving DecidableEq

/-- CircleRepository.get_by_id. -/
def CircleRepository.get_by_id (db : CircleDB) (circle_id : Nat) : Option Circle :=
  db.circles.find? fun c => c.id == circle_id

/-- CircleRepository.create: inserts the circle row and commits. -/
def CircleRepository.create (db : CircleDB) (name : String) (public : Bool) (owner : Nat) :
    Circle × CircleDB :=
  let circle : Circle := ⟨db.nextCircleId, name, public, owner⟩
  (circle, { db with circles := db.circles ++ [circle], nextCircleId := db.nextCircleId + 1 })

/-- CircleRepository.update: commits the field changes made on the row
fetched by get_by_id (only `name` and `public` are ever assigned). -/
def CircleRepository.update (db : CircleDB) (circle : Circle) : CircleDB :=
  { db with circles := db.circles.map fun c => if c.id == circle.id then circle else c }

/-- CircleRepository.delete: issues `session.delete(circle)` for the circle
row only and commits; no membership row is touched and no cascade is
configured, so the `circle_membership.circle_id` foreign key (MySQL,
RESTRICT) makes the commit fail whenever a membership row still references
the circle. -/
def CircleRepository.delete (db : CircleDB) (circle : Circle) : Except PyError CircleDB :=
  if db.memberships.any fun m => m.circle_id == circle.id then
    .error (.integrityError "circle_membership.circle_id")
  else
    .ok { db with circles := removeFirst (fun c => c == circle) db.circles }

/-- CircleRepository.is_member. -/
def CircleRepository.is_member (db : CircleDB) (user_id circle_id : Nat) : Bool :=
  db.memberships.any fun m => m.user_id == user_id && m.circle_id == circle_id

/-- CircleRepository.add_member: inserts a membership row; the
`unique_membership` constraint is on the pair `(user_id, circle_id)`. -/
def CircleRepository.add_member (db : CircleDB) (user_id circle_id : Nat) :
    Except PyError (CircleMembershipRow × CircleDB) :=
  if CircleRepository.is_member db user_id circle_id then
    .error (.integrityError "unique_membership")
  else
    let row : CircleMembershipRow := ⟨db.nextMembershipId, user_id, circle_id⟩
    .ok (row, { db with memberships := db.memberships ++ [row],
                        nextMembershipId := db.nextMembershipId + 1 })

/-- CircleRepository.remove_member: deletes the first row matching the
pair. -/
def CircleRepository.remove_member (db : CircleDB) (user_id circle_id : Nat) :
    Bool × CircleDB :=
  let remaining := removeFirst
    (fun m => m.user_id == user_id && m.circle_id == circle_id) db.memberships
  if CircleRepository.is_member db user_id circle_id then
    (true, { db with memberships := remaining })
  else
    (false, db)

/-- CircleRepository.get_members: user ids holding a membership row for the
circle, resolved against the user table. -/
def CircleRepository.get_members (db : CircleDB) (circle_id : Nat) : List Nat :=
  let user_ids := (db.memberships.filter fun m => m.circle_id == circle_id).map
    fun m => m.user_id
  db.users.filter fun u => user_ids.contains u

/-- CircleService.get_circle_by_id: a read, no commit. -/
def CircleService.get_circle_by_id (db : CircleDB) (circle_id : Nat) :
    Except PyError Circle :=
  match CircleRepository.get_by_id db circle_id with
  | none => .error (.http 404 "Circle not found")
  | some circ => .ok circ

/-- CircleService.create_circle: commits the circle insert, then commits the
owner membership insert. -/
def CircleService.create_circle (db : CircleDB) (current_user_id : Nat)
    (name : String) (public : Bool) : Except PyError Circle × CircleDB :=
  let created := CircleRepository.create db name public current_user_id
  match CircleRepository.add_member created.2 current_user_id created.1.id with
  | .error e => (.error e, created.2)
  | .ok (_, db2) => (.ok created.1, db2)

/-- Patch carried by CircleUpdateDTO: optional `name` and `public`. -/
structure CircleUpdateDTO where
  name : Option String
  public : Option Bool
deriving DecidableEq

/-- CircleService.update_circle: owner-only partial patch. -/
def CircleService.update_circle (db : CircleDB) (current_user_id circle_id : Nat)
    (update_dto : CircleUpdateDTO) : Except PyError Circle × CircleDB :=
  match CircleRepository.get_by_id db circle_id with
  | none => (.error (.http 404 "Circle not found"), db)
  | some circ =>
    if circ.owner != current_user_id then
      (.error (.http 403 "Only the circle owner can update the circle"), db)
    else
      let patched := { circ with
        name := update_dto.name.getD circ.name,
        public := update_dto.public.getD circ.public }
      (.ok patched, CircleRepository.update db patched)

/-- CircleService.delete_circle: owner-only; delegates to
CircleRepository.delete (which removes only the circle row and raises when
the membership foreign key blocks the DELETE). -/
def CircleService.delete_circle (db : CircleDB) (current_user_id circle_id : Nat) :
    Except PyError String × CircleDB :=
  match CircleRepository.get_by_id db circle_id with
  | none => (.error (.http 404 "Circle not found"), db)
  | some circ =>
    if circ.owner != current_user_id then
      (.error (.http 403 "Only the circle owner can delete the circle"), db)
    else
      match CircleRepository.delete db circ with
      | .error e => (.error e, db)
      | .ok db2 => (.ok "Circle deleted successfully", db2)

/-- CircleService.join_circle. -/
def CircleService.join_circle (db : CircleDB) (current_user_id circle_id : Nat) :
    Except PyError String × CircleDB :=
  match CircleRepository.get_by_id db circle_id with
  | none => (.error (.http 404 "Circle not found"), db)
  | some circ =>
    if !circ.public then
      (.error (.http 403 "Cannot join a private circle"), db)
    else if CircleRepository.is_member db current_user_id circle_id then
      (.error (.http 400 "Already a member of this circle"), db)
    else
      match CircleRepository.add_member db current_user_id circle_id with
      | .error e => (.error e, db)
      | .ok (_, db2) => (.ok "Successfully joined circle", db2)

/-- CircleService.add_member_to_circle. -/
def CircleService.add_member_to_circle (db : CircleDB) (current_user_id circle_id user_id : Nat) :
    Except PyError String × CircleDB :=
  match CircleRepository.get_by_id db circle_id with
  | none => (.error (.http 404 "Circle not found"), db)
  | some circ =>
    if circ.owner != current_user_id then
      (.error (.http 403 "Only the circle owner can add members"), db)
    else if !db.users.contains user_id then
      (.error (.http 404 "User not found"), db)
    else if CircleRepository.is_member db user_id circle_id then
      (.error (.http 400 "User is already a member of this circle"), db)
    else
      match CircleRepository.add_member db user_id circle_id with
      | .error e => (.error e, db)
      | .ok (_, db2) => (.ok "User added to circle successfully", db2)

/-- CircleService.leave_circle. -/
def CircleService.leave_circle (db : CircleDB) (current_user_id circle_id : Nat) :
    Except PyError String × CircleDB :=
  match CircleRepository.get_by_id db circle_id with
  | none => (.error (.http 404 "Circle not found"), db)
  | some circ =>
    if circ.owner == current_user_id then
      (.error (.http 400 "Circle owner cannot leave the circle. Delete it instead."), db)
    else if !CircleRepository.is_member db current_user_id circle_id then
      (.error (.http 400 "Not a member of this circle"), db)
    else
      (.ok "Successfully left circle",
       (CircleRepository.remove_member db current_user_id circle_id).2)

/-- CircleService.kick_member. -/
def CircleService.kick_member (db : CircleDB) (current_user_id circle_id user_id : Nat) :
    Except PyError String × CircleDB :=
  match CircleRepository.get_by_id db circle_id with
  | none => (.error (.http 404 "Circle not found"), db)
  | some circ =>
    if circ.owner != current_user_id then
      (.error (.http 403 "Only the circle owner can kick members"), db)
    else if user_id == current_user_id then
      (.error (.http 400 "Cannot kick yourself from your own circle"), db)
    else if !CircleRepository.is_member db user_id circle_id then
      (.error (.http 400 "User is not a member of this circle"), db)
    else
      (.ok "User kicked from circle successfully",
       (CircleRepository.remove_member db user_id circle_id).2)

/-- CircleService.get_circle_members: a read, no commit. -/
def CircleService.get_circle_members (db : CircleDB) (circle_id : Nat) :
    Except PyError (List Nat) :=
  match CircleRepository.get_by_id db circle_id with
  | none => .error (.http 404 "Circle not found")
  | some _ => .ok (CircleRepository.get_members db circle_id)

/-- CircleService.get_circle_events: a read; the circle-event relation is
unimplemented upstream, so an existing circle always yields the empty
list. -/
def CircleService.get_circle_events (db : CircleDB) (circle_id : Nat) :
    Except PyError (List Nat) :=
  match CircleRepository.get_by_id db circle_id with
  | none => .error (.http 404 "Circle not found")
  | some _ => .ok []

/-- Caller-initiated mutating operations of the circle subsystem. -/
inductive CircleOp where
  | create (owner : Nat) (name : String) (public : Bool)
  | update (caller circle_id : Nat) (dto : CircleUpdateDTO)
  | delete (caller circle_id : Nat)
  | join (caller circle_id : Nat)
  | addMember (caller circle_id user_id : Nat)
  | leave (caller circle_id : Nat)
  | kick (caller circle_id user_id : Nat)

/-- Store state after a completed circle service call. -/
def applyCircleOp (db : CircleDB) : CircleOp → CircleDB
  | .create o n p => (CircleService.create_circle db o n p).2
  | .update c cid dto => (CircleService.update_circle db c cid dto).2
  | .delete c cid => (CircleService.delete_circle db c cid).2
  | .join c cid => (CircleService.join_circle db c cid).2
  | .addMember c cid u => (CircleService.add_member_to_circle db c cid u).2
  | .leave c cid => (CircleService.leave_circle db c cid).2
  | .kick c cid u => (CircleService.kick_member db c cid u).2

/-- Fresh circle store. -/
def initCircleDB (users : List Nat) : CircleDB :=
  ⟨users, [], [], 1, 1⟩

/-- Circle stores reachable from a fresh store through completed service
calls. -/
inductive CircleReachable : CircleDB → Prop where
  | init (users : List Nat) : CircleReachable (initCircleDB users)
  | step {db : CircleDB} (op : CircleOp) :
      CircleReachable db → CircleReachable (applyCircleOp db op)

/-- Consistency invariant of the circle store: circle ids are below the
counter and pairwise distinct, membership rows reference circle ids below
the counter, and every circle has its owner membership row. -/
structure CircleInv (db : CircleDB) : Prop where
  idBound : ∀ c ∈ db.circles, c.id < db.nextCircleId
  idNodup : db.circles.Pairwise fun c d => c.id ≠ d.id
  memBound : ∀ m ∈ db.memberships, m.circle_id < db.nextCircleId
  ownerMember : ∀ c ∈ db.circles, CircleRepository.is_member db c.owner c.id = true

/-- Member set of the `EventState` Python enum (`models/event.py`): member
names `UPCOMING` and `PASSED` with values `"upcoming"` and `"passed"`. -/
inductive EventState where
  | UPCOMING
  | PASSED
deriving DecidableEq

/-- Value of an `EventState` member. -/
def EventState.value : EventState → String
  | .UPCOMING => "upcoming"
  | .PASSED => "passed"

/-- Python attribute access `EventState.<name>` on the enum class: members
are found by member name; any other attribute raises `AttributeError`. -/
def EventState.getattr (name : String) : Except PyError EventState :=
  if name == "UPCOMING" then .ok .UPCOMING
  else if name == "PASSED" then .ok .PASSED
  else .error (.attributeError name)

/-- Python value lookup `EventState(value)`: finds the member by value,
`none` when the call would raise `ValueError`. -/
def EventState.ofValue (value : String) : Option EventState :=
  if value == "upcoming" then some .UPCOMING
  else if value == "passed" then some .PASSED
  else none

/-- Row of the `events` table (`models/event.py`); timestamps as integers. -/
structure EventRow where
  id : Nat
  name : String
  description : Option String
  start_at : Int
  end_at : Int
  state : EventState
deriving DecidableEq

/-- Row of the `event_ownership` table (`models/associations.py`,
`EventOwnership`). -/
structure EventOwnershipRow where
  id : Nat
  user_id : Nat
  event_id : Nat
deriving DecidableEq

/-- Store state for the event subsystem. -/
structure EventDB where
  events : List EventRow
  ownerships : List EventOwnershipRow
  nextEventId : Nat
  nextOwnershipId : Nat
deriving DecidableEq

/-- EventRepository.get_by_id. -/
def EventRepository.get_by_id (db : EventDB) (event_id : Nat) : Option EventRow :=
  db.events.find? fun e => e.id == event_id

/-- EventRepository.owns_event. -/
def EventRepository.owns_event (db : EventDB) (user_id event_id : Nat) : Bool :=
  db.ownerships.any fun o => o.user_id == user_id && o.event_id == event_id

/-- EventRepository.create: inserts the event row and commits. -/
def EventRepository.create (db : EventDB) (event : EventRow) : EventRow × EventDB :=
  let row := { event with id := db.nextEventId }
  (row, { db with events := db.events ++ [row], nextEventId := db.nextEventId + 1 })

/-- EventRepository.update: commits the field changes made on the fetched
row. -/
def EventRepository.update (db : EventDB) (event : EventRow) : EventDB :=
  { db with events := db.events.map fun e => if e.id == event.id then event else e }

/-- EventRepository.add_owner: inserts an ownership row; the
`unique_event_ownership` constraint is on the pair `(user_id, event_id)`. -/
def EventRepository.add_owner (db : EventDB) (user_id event_id : Nat) :
    Except PyError (EventOwnershipRow × EventDB) :=
  if EventRepository.owns_event db user_id event_id then
    .error (.integrityError "unique_event_ownership")
  else
    let row : EventOwnershipRow := ⟨db.nextOwnershipId, user_id, event_id⟩
    .ok (row, { db with ownerships := db.ownerships ++ [row],
                        nextOwnershipId := db.nextOwnershipId + 1 })

/-- EventRepository.delete: issues `session.delete(event)` and commits; no
cascade is configured, so the `event_ownership.event_id` foreign key
(MySQL, RESTRICT) makes the commit fail whenever an ownership row still
references the event. -/
def EventRepository.delete (db : EventDB) (event : EventRow) : Except PyError EventDB :=
  if db.ownerships.any fun o => o.event_id == event.id then
    .error (.integrityError "event_ownership.event_id")
  else
    .ok { db with events := removeFirst (fun e => e == event) db.events }

/-- Payload of EventCreateDTO. -/
structure EventCreateDTO where
  name : String
  description : Option String
  start_at : Int
  end_at : Int
deriving DecidableEq

/-- Payload of EventUpdateDTO: all fields optional, `state` a raw string. -/
structure EventUpdateDTO where
  name : Option String
  description : Option String
  start_at : Option Int
  end_at : Option Int
  state : Option String
deriving DecidableEq

/-- EventService.create_event (`event_service.py`): validates the times,
derives the initial state through the attribute accesses
`EventState.upcoming` and `EventState.passed` from the current clock `now`,
then inserts the event and the creator ownership (two commits). -/
def EventService.create_event (db : EventDB) (current_user_id : Nat)
    (event_dto : EventCreateDTO) (now : Int) : Except PyError EventRow × EventDB :=
  if event_dto.end_at ≤ event_dto.start_at then
    (.error (.http 400 "Event end time must be after start time"), db)
  else
    match (if event_dto.start_at > now then EventState.getattr "upcoming"
           else EventState.getattr "passed") with
    | .error e => (.error e, db)
    | .ok state =>
      let created := EventRepository.create db
        ⟨0, event_dto.name, event_dto.description, event_dto.start_at, event_dto.end_at, state⟩
      match EventRepository.add_owner created.2 current_user_id created.1.id with
      | .error e => (.error e, created.2)
      | .ok (_, db2) => (.ok created.1, db2)

/-- EventService.get_event_by_id. -/
def EventService.get_event_by_id (db : EventDB) (current_user_id event_id : Nat) :
    Except PyError EventRow :=
  match EventRepository.get_by_id db event_id with
  | none => .error (.http 404 "Event not found")
  | some event =>
    if !EventRepository.owns_event db current_user_id event_id then
      .error (.http 403 "You do not have access to this event")
    else
      .ok event

/-- EventService.update_event: owner-only partial patch; a provided `state`
string goes through `EventState(value)` (`InvalidOperation` on an
unrecognized value); the `end_at > start_at` check runs on the post-patch
field values, before the single commit. -/
def EventService.update_event (db : EventDB) (current_user_id event_id : Nat)
    (update_dto : EventUpdateDTO) : Except PyError EventRow × EventDB :=
  match EventRepository.get_by_id db event_id with
  | none => (.error (.http 404 "Event not found"), db)
  | some event =>
    if !EventRepository.owns_event db current_user_id event_id then
      (.error (.http 403 "Only event owners can update the event"), db)
    else
      let patched := { event with
        name := update_dto.name.getD event.name,
        description := match update_dto.description with
          | some d => some d
          | none => event.description,
        start_at := update_dto.start_at.getD event.start_at,
        end_at := update_dto.end_at.getD event.end_at }
      let finished : EventRow → Except PyError EventRow × EventDB := fun e2 =>
        if e2.end_at ≤ e2.start_at then
          (.error (.http 400 "Event end time must be after start time"), db)
        else
          (.ok e2, EventRepository.update db e2)
      match update_dto.state with
      | none => finished patched
      | some sv =>
        match EventState.ofValue sv with
        | none => (.error (.http 400 "Invalid state. Must be one of: upcoming, passed"), db)
        | some st => finished { patched with state := st }

/-- EventService.delete_event. -/
def EventService.delete_event (db : EventDB) (current_user_id event_id : Nat) :
    Except PyError String × EventDB :=
  match EventRepository.get_by_id db event_id with
  | none => (.error (.http 404 "Event not found"), db)
  | some event =>
    if !EventRepository.owns_event db current_user_id event_id then
      (.error (.http 403 "Only event owners can delete the event"), db)
    else
      match EventRepository.delete db event with
      | .error e => (.error e, db)
      | .ok db2 => (.ok "Event deleted successfully", db2)

/-- Concrete scenario: users 1 and 2, user 1 has sent user 2 a friend
request through the service. -/
def sendScenario : FriendDB :=
  applyFriendOp (initFriendDB [1, 2]) (FriendOp.send 1 2)

/-- Concrete scenario: the request from user 1 to user 2 was then rejected
by user 2 (the rejected row is retained). -/
def rejectScenario : FriendDB :=
  applyFriendOp sendScenario (FriendOp.reject 2 1)

/-- Concrete store holding a single rejected friend request from user 5 to
user 6 (row retained after a reject, as the service does). -/
def rejectedRowStore : FriendDB :=
  ⟨[5, 6], [⟨7, 5, 6, "rejected"⟩], [], 8⟩

/-- Concrete scenario: user 1 created a public circle through the service. -/
def circleScenario : CircleDB :=
  applyCircleOp (initCircleDB [1]) (CircleOp.create 1 "hiking" true)

/-! Helper lemmas shared by the claim theorems. -/

theorem removeFirst_sublist {α : Type} (p : α → Bool) :
    ∀ l : List α, List.Sublist (removeFirst p l) l
  | [] => List.Sublist.refl _
  | a :: as => by
    rw [removeFirst]
    split
    · exact List.sublist_cons_self a as
    · exact List.Sublist.cons₂ a (removeFirst_sublist p as)

theorem mem_removeFirst {α : Type} {p : α → Bool} {l : List α} {x : α}
    (h : x ∈ removeFirst p l) : x ∈ l :=
  (removeFirst_sublist p l).subset h

theorem any_of_sublist {α : Type} {p : α → Bool} {l₁ l₂ : List α}
    (hs : List.Sublist l₁ l₂) (h : l₁.any p = true) : l₂.any p = true := by
  rcases List.any_eq_true.mp h with ⟨x, hx, hpx⟩
  exact List.any_eq_true.mpr ⟨x, hs.subset hx, hpx⟩

theorem not_mem_removeFirst_self {α : Type} [DecidableEq α] :
    ∀ {l : List α} {c : α}, l.Pairwise (fun a b => a ≠ b) → c ∉ removeFirst (fun x => x == c) l
  | [], _, _ => by simp [removeFirst]
  | a :: as, c, hp => by
    rw [removeFirst]
    rcases List.pairwise_cons.mp hp with ⟨ha, has⟩
    split
    · next heq =>
      have hac : a = c := by simpa using heq
      intro hmem
      exact ha c hmem (hac ▸ rfl)
    · next hne =>
      have hac : a ≠ c := by simpa using hne
      intro hmem
      rcases List.mem_cons.mp hmem with h1 | h1
      · exact hac h1.symm
      · exact not_mem_removeFirst_self has h1

/-- C1: the claim fails on the code: a well-formed create call (endAt >
startAt) raises `AttributeError` instead of succeeding and leaves the store
unchanged — `EventService.create_event` reads `EventState.upcoming` /
`EventState.passed`, but the enum members are named `UPCOMING` / `PASSED`,
so the attribute lookup fails for the future-start case and the past-start
case alike, while the repository tests expect status 201 with state
`upcoming` resp. `passed`. -/
theorem event_create_state_attribute_crash :
    (EventService.create_event ⟨[], [], 1, 1⟩ 1 ⟨"Future Event", none, 3600, 7200⟩ 0).1
      = .error (.attributeError "upcoming") ∧
    (EventService.create_event ⟨[], [], 1, 1⟩ 1 ⟨"Past Event", none, -3600, 3600⟩ 0).1
      = .error (.attributeError "passed") ∧
    (EventService.create_event ⟨[], [], 1, 1⟩ 1 ⟨"Future Event", none, 3600, 7200⟩ 0).2
      = ⟨[], [], 1, 1⟩ := by
  decide

theorem mem_removeFirst_of_not {α : Type} {p : α → Bool} :
    ∀ {l : List α} {x : α}, x ∈ l → p x = false → x ∈ removeFirst p l
  | [], x, hx, _ => absurd hx (List.not_mem_nil x)
  | a :: as, x, hx, hpx => by
    rw [removeFirst]
    split
    · next hpa =>
      rcases List.mem_cons.mp hx with h1 | h1
      · rw [h1] at hpx; rw [hpx] at hpa; exact absurd hpa (by simp)
      · exact h1
    · rcases List.mem_cons.mp hx with h1 | h1
      · exact h1 ▸ List.mem_cons_self _ _
      · exact List.mem_cons_of_mem _ (mem_removeFirst_of_not h1 hpx)

theorem pairwise_key_eq {α β : Type} (key : α → β) :
    ∀ {l : List α}, l.Pairwise (fun a b => key a ≠ key b) →
      ∀ {c d : α}, c ∈ l → d ∈ l → key c = key d → c = d
  | [], _, c, _, hc, _, _ => absurd hc (List.not_mem_nil c)
  | a :: as, hp, c, d, hc, hd, hk => by
    rcases List.pairwise_cons.mp hp with ⟨ha, has⟩
    rcases List.mem_cons.mp hc with h1 | h1 <;> rcases List.mem_cons.mp hd with h2 | h2
    · rw [h1, h2]
    · exact absurd (h1 ▸ hk) (ha d h2)
    · exact absurd (h2 ▸ hk.symm) (ha c h1)
    · exact pairwise_key_eq key has h1 h2 hk

theorem circleInv_init (users : List Nat) : CircleInv (initCircleDB users) := by
  refine ⟨?_, ?_, ?_, ?_⟩ <;> simp [initCircleDB]

theorem circleInv_unique_circle {db : CircleDB} (hinv : CircleInv db) {c d : Circle}
    (hc : c ∈ db.circles) (hd : d ∈ db.circles) (hk : c.id = d.id) : c = d :=
  pairwise_key_eq (fun c => c.id) hinv.idNodup hc hd hk

theorem get_by_id_mem {db : CircleDB} {circle_id : Nat} {c : Circle}
    (h : CircleRepository.get_by_id db circle_id = some c) :
    c ∈ db.circles ∧ c.id = circle_id := by
  have hm := List.mem_of_find?_eq_some h
  have hp := List.find?_some h
  exact ⟨hm, by simpa using hp⟩

theorem circleInv_create (db : CircleDB) (o : Nat) (n : String) (p : Bool)
    (hinv : CircleInv db) : CircleInv (CircleService.create_circle db o n p).2 := by
  have hno : (db.memberships.any fun m =>
      m.user_id == o && m.circle_id == db.nextCircleId) = false := by
    rw [List.any_eq_false]
    intro m hm
    have := hinv.memBound m hm
    simp only [Bool.and_eq_true, beq_iff_eq, not_and]
    intro _
    omega
  rw [CircleService.create_circle, CircleRepository.create, CircleRepository.add_member]
  simp only [CircleRepository.is_member]
  simp only [hno, Bool.false_eq_true, if_false]
  refine ⟨?_, ?_, ?_, ?_⟩
  · intro c hc
    simp only [List.mem_append, List.mem_singleton] at hc
    rcases hc with hc | hc
    · have := hinv.idBound c hc
      simp only []
      omega
    · rw [hc]
      simp only []
      omega
  · simp only []
    rw [List.pairwise_append]
    refine ⟨hinv.idNodup, List.pairwise_singleton _ _, ?_⟩
    intro c hc d hd
    simp only [List.mem_singleton] at hd
    have := hinv.idBound c hc
    rw [hd]
    simp only []
    omega
  · intro m hm
    simp only [List.mem_append, List.mem_singleton] at hm
    rcases hm with hm | hm
    · have := hinv.memBound m hm
      simp only []
      omega
    · rw [hm]
      simp only []
      omega
  · intro c hc
    simp only [List.mem_append, List.mem_singleton] at hc
    rw [CircleRepository.is_member]
    simp only [List.any_append]
    rcases hc with hc | hc
    · have := hinv.ownerMember c hc
      rw [CircleRepository.is_member] at this
      rw [this]
      simp
    · rw [hc]
      simp

theorem circleInv_repo_update {db : CircleDB} (hinv : CircleInv db) {circ patched : Circle}
    (hmem : circ ∈ db.circles) (hid : patched.id = circ.id)
    (howner : patched.owner = circ.owner) :
    CircleInv (CircleRepository.update db patched) := by
  rw [CircleRepository.update]
  have hfid : ∀ c : Circle,
      (if c.id == patched.id then patched else c).id = c.id := by
    intro c
    split
    · next h => simp only [beq_iff_eq] at h; rw [h]
    · rfl
  have hfowner : ∀ c ∈ db.circles,
      (if c.id == patched.id then patched else c).owner = c.owner := by
    intro c hc
    split
    · next h =>
      simp only [beq_iff_eq] at h
      have hceq : c = circ :=
        circleInv_unique_circle hinv hc hmem (by rw [h, hid])
      rw [howner, hceq]
    · rfl
  refine ⟨?_, ?_, ?_, ?_⟩
  · intro c hc
    simp only [List.mem_map] at hc
    rcases hc with ⟨c0, hc0, rfl⟩
    simp only [hfid c0]
    exact hinv.idBound c0 hc0
  · simp only [List.pairwise_map]
    exact hinv.idNodup.imp fun h => by simpa only [hfid] using h
  · exact hinv.memBound
  · intro c hc
    simp only [List.mem_map] at hc
    rcases hc with ⟨c0, hc0, rfl⟩
    rw [CircleRepository.is_member]
    simp only [hfid c0, hfowner c0 hc0]
    have := hinv.ownerMember c0 hc0
    rw [CircleRepository.is_member] at this
    exact this

theorem circleInv_add_membership {db : CircleDB} (hinv : CircleInv db) {u cid : Nat}
    (hcid : cid < db.nextCircleId) :
    CircleInv { db with
      memberships := db.memberships ++ [⟨db.nextMembershipId, u, cid⟩],
      nextMembershipId := db.nextMembershipId + 1 } := by
  refine ⟨hinv.idBound, hinv.idNodup, ?_, ?_⟩
  · intro m hm
    simp only [List.mem_append, List.mem_singleton] at hm
    rcases hm with hm | hm
    · exact hinv.memBound m hm
    · rw [hm]
      exact hcid
  · intro c hc
    rw [CircleRepository.is_member]
    simp only [List.any_append]
    have := hinv.ownerMember c hc
    rw [CircleRepository.is_member] at this
    rw [this]
    simp

theorem circleInv_remove_membership {db : CircleDB} (hinv : CircleInv db) {u cid : Nat}
    (hsafe : ∀ c ∈ db.circles, ¬(c.owner = u ∧ c.id = cid)) :
    CircleInv { db with memberships := removeFirst (fun m => m.user_id == u && m.circle_id == cid) db.memberships } := by
  refine ⟨hinv.idBound, hinv.idNodup, ?_, ?_⟩
  · intro m hm
    exact hinv.memBound m (mem_removeFirst hm)
  · intro c hc
    have hold := hinv.ownerMember c hc
    rw [CircleRepository.is_member] at hold
    rcases List.any_eq_true.mp hold with ⟨m, hm, hpm⟩
    simp only [Bool.and_eq_true, beq_iff_eq] at hpm
    rw [CircleRepository.is_member]
    refine List.any_eq_true.mpr ⟨m, ?_, ?_⟩
    · refine mem_removeFirst_of_not hm ?_
      cases hdec : (m.user_id == u && m.circle_id == cid) with
      | false => rfl
      | true =>
        simp only [Bool.and_eq_true, beq_iff_eq] at hdec
        exact (hsafe c hc ⟨by rw [← hpm.1, hdec.1], by rw [← hpm.2, hdec.2]⟩).elim
    · simp only [Bool.and_eq_true, beq_iff_eq]
      exact hpm

theorem circleInv_delete_row {db : CircleDB} (hinv : CircleInv db) (circ : Circle) :
    CircleInv { db with circles := removeFirst (fun c => c == circ) db.circles } := by
  refine ⟨?_, ?_, hinv.memBound, ?_⟩
  · intro c hc
    exact hinv.idBound c (mem_removeFirst hc)
  · exact hinv.idNodup.sublist (removeFirst_sublist _ _)
  · intro c hc
    have := hinv.ownerMember c (mem_removeFirst hc)
    rw [CircleRepository.is_member] at this ⊢
    exact this

theorem circleInv_update (db : CircleDB) (caller circle_id : Nat) (dto : CircleUpdateDTO)
    (hinv : CircleInv db) : CircleInv (CircleService.update_circle db caller circle_id dto).2 := by
  rw [CircleService.update_circle]
  cases hc : CircleRepository.get_by_id db circle_id with
  | none => exact hinv
  | some circ =>
    dsimp only
    split
    · exact hinv
    · exact circleInv_repo_update hinv (get_by_id_mem hc).1 rfl rfl

theorem circleInv_delete (db : CircleDB) (caller circle_id : Nat)
    (hinv : CircleInv db) : CircleInv (CircleService.delete_circle db caller circle_id).2 := by
  rw [CircleService.delete_circle]
  cases hc : CircleRepository.get_by_id db circle_id with
  | none => exact hinv
  | some circ =>
    dsimp only
    split
    · exact hinv
    · by_cases hfk : (db.memberships.any fun m => m.circle_id == circ.id) = true
      · rw [CircleRepository.delete, if_pos hfk]
        exact hinv
      · rw [CircleRepository.delete, if_neg hfk]
        exact circleInv_delete_row hinv circ

theorem circleInv_join (db : CircleDB) (caller circle_id : Nat)
    (hinv : CircleInv db) : CircleInv (CircleService.join_circle db caller circle_id).2 := by
  rw [CircleService.join_circle]
  cases hc : CircleRepository.get_by_id db circle_id with
  | none => exact hinv
  | some circ =>
    dsimp only
    split
    · exact hinv
    · split
      · exact hinv
      · next hnm =>
        rw [Bool.not_eq_true] at hnm
        rw [CircleRepository.add_member, hnm]
        dsimp only
        have hcid : circle_id < db.nextCircleId := by
          rcases get_by_id_mem hc with ⟨hm, hid⟩
          have := hinv.idBound circ hm
          omega
        exact circleInv_add_membership hinv hcid

theorem circleInv_addMember (db : CircleDB) (caller circle_id user_id : Nat)
    (hinv : CircleInv db) :
    CircleInv (CircleService.add_member_to_circle db caller circle_id user_id).2 := by
  rw [CircleService.add_member_to_circle]
  cases hc : CircleRepository.get_by_id db circle_id with
  | none => exact hinv
  | some circ =>
    dsimp only
    split
    · exact hinv
    · split
      · exact hinv
      · split
        · exact hinv
        · next hnm =>
          rw [Bool.not_eq_true] at hnm
          rw [CircleRepository.add_member, hnm]
          dsimp only
          have hcid : circle_id < db.nextCircleId := by
            rcases get_by_id_mem hc with ⟨hm, hid⟩
            have := hinv.idBound circ hm
            omega
          exact circleInv_add_membership hinv hcid

theorem circleInv_leave (db : CircleDB) (caller circle_id : Nat)
    (hinv : CircleInv db) : CircleInv (CircleService.leave_circle db caller circle_id).2 := by
  rw [CircleService.leave_circle]
  cases hc : CircleRepository.get_by_id db circle_id with
  | none => exact hinv
  | some circ =>
    dsimp only
    split
    · exact hinv
    · next howner =>
      split
      · exact hinv
      · rw [CircleRepository.remove_member]
        dsimp only
        split
        · refine circleInv_remove_membership hinv ?_
          intro c hcmem hcon
          rcases get_by_id_mem hc with ⟨hm, hid⟩
          have hceq : c = circ :=
            circleInv_unique_circle hinv hcmem hm (by rw [hcon.2, hid])
          rw [Bool.not_eq_true, beq_eq_false_iff_ne] at howner
          have : circ.owner = caller := by rw [← hceq]; exact hcon.1
          exact howner this
        · exact hinv

theorem circleInv_kick (db : CircleDB) (caller circle_id user_id : Nat)
    (hinv : CircleInv db) : CircleInv (CircleService.kick_member db caller circle_id user_id).2 := by
  rw [CircleService.kick_member]
  cases hc : CircleRepository.get_by_id db circle_id with
  | none => exact hinv
  | some circ =>
    dsimp only
    split
    · exact hinv
    · next howner =>
      split
      · exact hinv
      · next hself =>
        split
        · exact hinv
        · rw [CircleRepository.remove_member]
          dsimp only
          split
          · refine circleInv_remove_membership hinv ?_
            intro c hcmem hcon
            rcases get_by_id_mem hc with ⟨hm, hid⟩
            have hceq : c = circ :=
              circleInv_unique_circle hinv hcmem hm (by rw [hcon.2, hid])
            rw [Bool.not_eq_true, bne_eq_false_iff_eq] at howner
            rw [Bool.not_eq_true, beq_eq_false_iff_ne] at hself
            have : circ.owner = user_id := by rw [← hceq]; exact hcon.1
            exact hself (by rw [← this, howner])
          · exact hinv

theorem circleInv_step (db : CircleDB) (op : CircleOp) (hinv : CircleInv db) :
    CircleInv (applyCircleOp db op) := by
  cases op with
  | create o n p => exact circleInv_create db o n p hinv
  | update c cid dto => exact circleInv_update db c cid dto hinv
  | delete c cid => exact circleInv_delete db c cid hinv
  | join c cid => exact circleInv_join db c cid hinv
  | addMember c cid u => exact circleInv_addMember db c cid u hinv
  | leave c cid => exact circleInv_leave db c cid hinv
  | kick c cid u => exact circleInv_kick db c cid u hinv

theorem circleInv_reachable {db : CircleDB} (h : CircleReachable db) : CircleInv db := by
  induction h with
  | init users => exact circleInv_init users
  | step op _ ih => exact circleInv_step _ op ih

/-! Friendship-store invariant machinery. -/

theorem find?_pair_setStatus (rid : Nat) (s : String) (l : List FriendRequestRow) (a b : Nat) :
    ((setStatusById rid s l).find? fun r =>
        r.outgoing_user_id == a && r.incoming_user_id == b)
      = (l.find? fun r => r.outgoing_user_id == a && r.incoming_user_id == b).map
          fun q => if q.id == rid then { q with status := s } else q := by
  rw [setStatusById, List.find?_map]
  have hcomp : ((fun r : FriendRequestRow =>
        r.outgoing_user_id == a && r.incoming_user_id == b) ∘ fun q =>
          if q.id == rid then { q with status := s } else q)
      = fun r : FriendRequestRow => r.outgoing_user_id == a && r.incoming_user_id == b := by
    funext q
    simp only [Function.comp]
    split <;> rfl
  rw [hcomp]

theorem mem_setStatus_pending {rid : Nat} {s : String} (hs : (s == "pending") = false)
    {l : List FriendRequestRow} {w : FriendRequestRow}
    (hw : w ∈ setStatusById rid s l) (hp : reqPending w = true) :
    w ∈ l ∧ (w.id == rid) = false := by
  rw [setStatusById, List.mem_map] at hw
  rcases hw with ⟨w0, hw0, rfl⟩
  revert hp
  split
  · intro hp
    rw [reqPending] at hp
    simp only at hp
    rw [hp] at hs
    exact absurd hs (by simp)
  · next hid =>
    intro _
    exact ⟨hw0, by rw [Bool.not_eq_true] at hid; exact hid⟩

theorem pendingIn_setStatus {rid : Nat} {s : String} (hs : (s == "pending") = false)
    {l : List FriendRequestRow} {a b : Nat}
    (h : pendingIn (setStatusById rid s l) a b = true) : pendingIn l a b = true := by
  rw [pendingIn, List.any_eq_true] at h
  rcases h with ⟨w, hw, hpw⟩
  simp only [Bool.and_eq_true] at hpw
  have hmem := mem_setStatus_pending hs hw hpw.2
  rw [pendingIn, List.any_eq_true]
  exact ⟨w, hmem.1, by simp only [Bool.and_eq_true]; exact hpw⟩

theorem pendingIn_sublist {l₁ l₂ : List FriendRequestRow} {a b : Nat}
    (hsub : List.Sublist l₁ l₂) (h : pendingIn l₁ a b = true) : pendingIn l₂ a b = true :=
  any_of_sublist hsub h

theorem friendsIn_sublist {l₁ l₂ : List FriendsRow} {a b : Nat}
    (hsub : List.Sublist l₁ l₂) (h : friendsIn l₁ a b = true) : friendsIn l₂ a b = true :=
  any_of_sublist hsub h

theorem get_request_eq_of_mem {db : FriendDB}
    (hpu : db.requests.Pairwise fun r q =>
      ¬(r.outgoing_user_id = q.outgoing_user_id ∧ r.incoming_user_id = q.incoming_user_id))
    {q : FriendRequestRow} (hq : q ∈ db.requests) :
    FriendRequestRepository.get_request db q.outgoing_user_id q.incoming_user_id = some q := by
  rw [FriendRequestRepository.get_request]
  cases hf : db.requests.find? fun r =>
      r.outgoing_user_id == q.outgoing_user_id && r.incoming_user_id == q.incoming_user_id with
  | none =>
    have := List.find?_eq_none.mp hf q hq
    simp at this
  | some w =>
    have hwmem := List.mem_of_find?_eq_some hf
    have hwp := List.find?_some hf
    simp only [Bool.and_eq_true, beq_iff_eq] at hwp
    have : w = q := pairwise_key_eq (fun r => (r.outgoing_user_id, r.incoming_user_id))
      (hpu.imp fun hab => by
        intro hEq
        exact hab ⟨congrArg Prod.fst hEq, congrArg Prod.snd hEq⟩)
      hwmem hq (by rw [Prod.mk.injEq]; exact hwp)
    rw [this]

theorem pendingIn_of_pending_mem {l : List FriendRequestRow} {w : FriendRequestRow}
    (hw : w ∈ l) (hp : reqPending w = true) :
    pendingIn l w.outgoing_user_id w.incoming_user_id = true := by
  rw [pendingIn, List.any_eq_true]
  exact ⟨w, hw, by simp [hp]⟩

theorem friendInv_init (users : List Nat) : FriendInv (initFriendDB users) := by
  refine ⟨?_, ?_, ?_⟩ <;> simp [initFriendDB]

theorem friendInv_setStatus {db : FriendDB} (hinv : FriendInv db) (rid : Nat) (s : String)
    (hs : (s == "pending") = false) :
    FriendInv { db with requests := setStatusById rid s db.requests } := by
  refine ⟨?_, ?_, ?_⟩
  · rw [setStatusById]
    simp only [List.pairwise_map]
    refine hinv.pairUnique.imp fun hab => ?_
    intro hEq
    apply hab
    constructor
    · have h1 := hEq.1
      revert h1
      split <;> split <;> exact fun h => h
    · have h2 := hEq.2
      revert h2
      split <;> split <;> exact fun h => h
  · intro w hw hp
    have hmem := mem_setStatus_pending hs hw hp
    have hold := hinv.noMutual w hmem.1 hp
    rw [pendingReq] at hold ⊢
    simp only
    cases hnew : pendingIn (setStatusById rid s db.requests) w.incoming_user_id w.outgoing_user_id with
    | false => rfl
    | true => rw [pendingIn_setStatus hs hnew] at hold; exact hold
  · intro w hw hp
    have hmem := mem_setStatus_pending hs hw hp
    have hold := hinv.notFriendsWhenPending w hmem.1 hp
    rw [FriendRepository.are_friends] at hold ⊢
    exact hold

theorem friendInv_requests_sublist {db : FriendDB} (hinv : FriendInv db)
    {l : List FriendRequestRow} (hsub : List.Sublist l db.requests) :
    FriendInv { db with requests := l } := by
  refine ⟨hinv.pairUnique.sublist hsub, ?_, ?_⟩
  · intro w hw hp
    have hold := hinv.noMutual w (hsub.subset hw) hp
    rw [pendingReq] at hold ⊢
    simp only
    cases hnew : pendingIn l w.incoming_user_id w.outgoing_user_id with
    | false => rfl
    | true => rw [pendingIn_sublist hsub hnew] at hold; exact hold
  · intro w hw hp
    exact hinv.notFriendsWhenPending w (hsub.subset hw) hp

theorem friendInv_friends_sublist {db : FriendDB} (hinv : FriendInv db)
    {l : List FriendsRow} (hsub : List.Sublist l db.friends) :
    FriendInv { db with friends := l } := by
  refine ⟨hinv.pairUnique, hinv.noMutual, ?_⟩
  · intro w hw hp
    have hold := hinv.notFriendsWhenPending w hw hp
    rw [FriendRepository.are_friends] at hold ⊢
    simp only
    cases hnew : friendsIn l w.outgoing_user_id w.incoming_user_id with
    | false => rfl
    | true => rw [friendsIn_sublist hsub hnew] at hold; exact hold

theorem pendingIn_append (l₁ l₂ : List FriendRequestRow) (a b : Nat) :
    pendingIn (l₁ ++ l₂) a b = (pendingIn l₁ a b || pendingIn l₂ a b) := by
  rw [pendingIn, pendingIn, pendingIn, List.any_append]

theorem friendsIn_append (l₁ l₂ : List FriendsRow) (a b : Nat) :
    friendsIn (l₁ ++ l₂) a b = (friendsIn l₁ a b || friendsIn l₂ a b) := by
  rw [friendsIn, friendsIn, friendsIn, List.any_append]

theorem get_request_mem {db : FriendDB} {a b : Nat} {q : FriendRequestRow}
    (h : FriendRequestRepository.get_request db a b = some q) :
    q ∈ db.requests ∧ q.outgoing_user_id = a ∧ q.incoming_user_id = b := by
  rw [FriendRequestRepository.get_request] at h
  refine ⟨List.mem_of_find?_eq_some h, ?_⟩
  have := List.find?_some h
  simp only [Bool.and_eq_true, beq_iff_eq] at this
  exact this

theorem pendingIn_eq_first {db : FriendDB}
    (hpu : db.requests.Pairwise fun r q =>
      ¬(r.outgoing_user_id = q.outgoing_user_id ∧ r.incoming_user_id = q.incoming_user_id))
    (a b : Nat) :
    pendingIn db.requests a b
      = (FriendRequestRepository.get_request db a b).any reqPending := by
  cases hf : FriendRequestRepository.get_request db a b with
  | none =>
    rw [FriendRequestRepository.get_request] at hf
    cases hp : pendingIn db.requests a b with
    | false => rfl
    | true =>
      rw [pendingIn, List.any_eq_true] at hp
      rcases hp with ⟨w, hw, hpw⟩
      simp only [Bool.and_eq_true, beq_iff_eq] at hpw
      have := List.find?_eq_none.mp hf w hw
      simp [hpw.1.1, hpw.1.2] at this
  | some q =>
    rcases get_request_mem hf with ⟨hqm, hqa, hqb⟩
    simp only [Option.any_some]
    cases hrp : reqPending q with
    | true =>
      have := pendingIn_of_pending_mem hqm hrp
      rw [hqa, hqb] at this
      exact this
    | false =>
      cases hp : pendingIn db.requests a b with
      | false => rfl
      | true =>
        rw [pendingIn, List.any_eq_true] at hp
        rcases hp with ⟨w, hw, hpw⟩
        simp only [Bool.and_eq_true, beq_iff_eq] at hpw
        have hwq : w = q := by
          have hgw : FriendRequestRepository.get_request db w.outgoing_user_id w.incoming_user_id
              = some w := get_request_eq_of_mem hpu hw
          rw [hpw.1.1, hpw.1.2, hf] at hgw
          exact (Option.some_inj.mp hgw).symm
        rw [hwq] at hpw
        rw [hpw.2] at hrp
        exact absurd hrp (by simp)

theorem friendInv_add_friend {db : FriendDB} (hinv : FriendInv db) {u1 u2 : Nat}
    (hno : ∀ w ∈ db.requests, reqPending w = true →
      ¬((w.outgoing_user_id = u1 ∧ w.incoming_user_id = u2) ∨
        (w.outgoing_user_id = u2 ∧ w.incoming_user_id = u1))) :
    FriendInv { db with friends := db.friends ++ [⟨db.nextId, u1, u2⟩], nextId := db.nextId + 1 } := by
  refine ⟨hinv.pairUnique, hinv.noMutual, ?_⟩
  intro w hw hp
  have hold := hinv.notFriendsWhenPending w hw hp
  rw [FriendRepository.are_friends] at hold ⊢
  simp only
  rw [friendsIn_append, hold, Bool.false_or]
  cases hrow : friendsIn [⟨db.nextId, u1, u2⟩] w.outgoing_user_id w.incoming_user_id with
  | false => rfl
  | true =>
    rw [friendsIn] at hrow
    simp only [List.any_cons, List.any_nil, Bool.or_false, Bool.or_eq_true,
      Bool.and_eq_true, beq_iff_eq] at hrow
    exact (hno w hw hp (hrow.imp (fun h => ⟨h.1.symm, h.2.symm⟩)
      (fun h => ⟨h.2.symm, h.1.symm⟩))).elim

theorem friendInv_send (db : FriendDB) (s r : Nat) (hinv : FriendInv db) :
    FriendInv (FriendRequestService.create_friend_request db s r).2 := by
  rw [FriendRequestService.create_friend_request]
  split
  · exact hinv
  split
  · exact hinv
  next hself =>
  split
  · exact hinv
  next hfr =>
  dsimp only
  split
  · exact hinv
  next hp1 =>
  split
  · exact hinv
  next hp2 =>
  rw [FriendRequestRepository.create_request]
  split
  · exact hinv
  next hrow =>
  rw [Bool.not_eq_true] at hself hfr
  split at hrow
  · exact absurd hrow (by simp)
  rename_i hrowNone
  rw [Bool.not_eq_true] at hrowNone
  simp only [Except.ok.injEq, Prod.mk.injEq] at hrow
  obtain ⟨hrowEq, hdbEq⟩ := hrow
  subst hdbEq
  have hnone : FriendRequestRepository.get_request db s r = none := by
    cases hgr : FriendRequestRepository.get_request db s r with
    | none => rfl
    | some q => rw [hgr] at hrowNone; simp at hrowNone
  have hselfne : s ≠ r := by
    intro hEq
    rw [hEq] at hself
    simp at hself
  have hpIn2 : pendingIn db.requests r s = false := by
    rw [pendingIn_eq_first hinv.pairUnique]
    cases hgr : FriendRequestRepository.get_request db r s with
    | none => rfl
    | some q =>
      rw [hgr] at hp2
      simp only [Option.any_some] at hp2 ⊢
      rw [Bool.not_eq_true] at hp2
      exact hp2
  refine ⟨?_, ?_, ?_⟩
  · simp only
    rw [List.pairwise_append]
    refine ⟨hinv.pairUnique, List.pairwise_singleton _ _, ?_⟩
    intro q hq row hrowmem
    simp only [List.mem_singleton] at hrowmem
    rw [hrowmem]
    rw [FriendRequestRepository.get_request] at hnone
    have := List.find?_eq_none.mp hnone q hq
    simp only [Bool.and_eq_true, beq_iff_eq, not_and] at this
    intro hcon
    exact this hcon.1 hcon.2
  · intro w hw hp
    simp only [List.mem_append, List.mem_singleton] at hw
    rw [pendingReq]
    simp only
    rw [pendingIn_append]
    rcases hw with hw | hw
    · have hold := hinv.noMutual w hw hp
      rw [pendingReq] at hold
      rw [hold, Bool.false_or]
      cases hnew : pendingIn [⟨db.nextId, s, r, "pending"⟩] w.incoming_user_id w.outgoing_user_id with
      | false => rfl
      | true =>
        rw [pendingIn] at hnew
        simp only [List.any_cons, List.any_nil, Bool.or_false, Bool.and_eq_true,
          beq_iff_eq] at hnew
        have hpw : pendingIn db.requests w.outgoing_user_id w.incoming_user_id = true :=
          pendingIn_of_pending_mem hw hp
        rw [← hnew.1.2, ← hnew.1.1] at hpw
        rw [hpw] at hpIn2
        exact absurd hpIn2 (by simp)
    · rw [hw]
      simp only
      rw [hpIn2, Bool.false_or]
      cases hnew : pendingIn [⟨db.nextId, s, r, "pending"⟩] r s with
      | false => rfl
      | true =>
        rw [pendingIn] at hnew
        simp only [List.any_cons, List.any_nil, Bool.or_false, Bool.and_eq_true,
          beq_iff_eq] at hnew
        exact (hselfne hnew.1.1).elim
  · intro w hw hp
    simp only [List.mem_append, List.mem_singleton] at hw
    rw [FriendRepository.are_friends]
    simp only
    rcases hw with hw | hw
    · exact hinv.notFriendsWhenPending w hw hp
    · rw [hw]
      simp only
      rw [FriendRepository.are_friends] at hfr
      exact hfr

theorem friendInv_accept (db : FriendDB) (acc s : Nat) (hinv : FriendInv db) :
    FriendInv (FriendRequestService.accept_friend_request db acc s).2 := by
  rw [FriendRequestService.accept_friend_request]
  cases hfr : FriendRequestRepository.get_request db s acc with
  | none => exact hinv
  | some fr =>
    dsimp only
    split
    · exact hinv
    next hpend =>
    rw [Bool.not_eq_true, bne_eq_false_iff_eq] at hpend
    have hrp : reqPending fr = true := by rw [reqPending, hpend]; rfl
    rcases get_request_mem hfr with ⟨hfrmem, hfrout, hfrin⟩
    have hupd : (FriendRequestRepository.update_status db fr.id "accepted").2
        = { db with requests := setStatusById fr.id "accepted" db.requests } := by
      rw [FriendRequestRepository.update_status]
      cases hgb : FriendRequestRepository.get_by_id db fr.id with
      | none =>
        rw [FriendRequestRepository.get_by_id] at hgb
        have := List.find?_eq_none.mp hgb fr hfrmem
        simp at this
      | some r0 => rfl
    rw [hupd]
    have hinv1 := friendInv_setStatus hinv fr.id "accepted" (by decide)
    have hfnone : (db.friends.any fun f => f.user1_id == s && f.user2_id == acc) = false := by
      cases hx : db.friends.any fun f => f.user1_id == s && f.user2_id == acc with
      | false => rfl
      | true =>
        rcases List.any_eq_true.mp hx with ⟨f, hf, hpf⟩
        have hnf := hinv.notFriendsWhenPending fr hfrmem hrp
        rw [hfrout, hfrin, FriendRepository.are_friends, friendsIn] at hnf
        have hall : (db.friends.any fun f =>
            (f.user1_id == s && f.user2_id == acc) ||
            (f.user1_id == acc && f.user2_id == s)) = true :=
          List.any_eq_true.mpr ⟨f, hf, by rw [Bool.or_eq_true]; exact Or.inl hpf⟩
        rw [hall] at hnf
        exact absurd hnf (by simp)
    rw [FriendRepository.add_friendship]
    simp only [hfnone, Bool.false_eq_true, if_false]
    refine friendInv_add_friend hinv1 ?_
    intro w hw hp
    have hmem := mem_setStatus_pending (by decide) hw hp
    intro hcon
    rcases hcon with ⟨h1, h2⟩ | ⟨h1, h2⟩
    · have hgw : FriendRequestRepository.get_request db w.outgoing_user_id w.incoming_user_id
          = some w := get_request_eq_of_mem hinv.pairUnique hmem.1
      rw [h1, h2, hfr] at hgw
      have hwfr : w = fr := (Option.some_inj.mp hgw).symm
      rw [hwfr] at hmem
      simp at hmem
    · have hnm := hinv.noMutual fr hfrmem hrp
      rw [pendingReq, hfrin, hfrout] at hnm
      have hpw : pendingIn db.requests w.outgoing_user_id w.incoming_user_id = true :=
        pendingIn_of_pending_mem hmem.1 hp
      rw [h1, h2] at hpw
      rw [hpw] at hnm
      exact absurd hnm (by simp)

theorem friendInv_reject (db : FriendDB) (caller rid : Nat) (hinv : FriendInv db) :
    FriendInv (FriendRequestService.reject_friend_request db caller rid).2 := by
  rw [FriendRequestService.reject_friend_request]
  cases hg : FriendRequestRepository.get_by_id db rid with
  | none => exact hinv
  | some fr =>
    dsimp only
    split
    · exact hinv
    split
    · exact hinv
    rw [FriendRequestRepository.update_status]
    cases hg2 : FriendRequestRepository.get_by_id db rid with
    | none => exact hinv
    | some r0 =>
      dsimp only
      exact friendInv_setStatus hinv rid "rejected" (by decide)

theorem friendInv_cancel (db : FriendDB) (caller rid : Nat) (hinv : FriendInv db) :
    FriendInv (FriendRequestService.cancel_friend_request db caller rid).2 := by
  rw [FriendRequestService.cancel_friend_request]
  cases hg : FriendRequestRepository.get_by_id db rid with
  | none => exact hinv
  | some fr =>
    dsimp only
    split
    · exact hinv
    split
    · exact hinv
    rw [FriendRequestRepository.delete_request]
    cases hg2 : FriendRequestRepository.get_by_id db rid with
    | none => exact hinv
    | some r0 =>
      dsimp only
      exact friendInv_requests_sublist hinv (removeFirst_sublist _ _)

theorem friendInv_unfriend (db : FriendDB) (caller other : Nat) (hinv : FriendInv db) :
    FriendInv (FriendRequestService.unfriend db caller other).2 := by
  rw [FriendRequestService.unfriend]
  split
  · exact hinv
  split
  · exact hinv
  rw [FriendRepository.remove_friendship]
  dsimp only
  split
  · exact friendInv_friends_sublist hinv (removeFirst_sublist _ _)
  · exact hinv

theorem friendInv_step (db : FriendDB) (op : FriendOp) (hinv : FriendInv db) :
    FriendInv (applyFriendOp db op) := by
  cases op with
  | send s r => exact friendInv_send db s r hinv
  | accept a s => exact friendInv_accept db a s hinv
  | reject c rid => exact friendInv_reject db c rid hinv
  | cancel c rid => exact friendInv_cancel db c rid hinv
  | unfriend c o => exact friendInv_unfriend db c o hinv

theorem friendInv_reachable {db : FriendDB} (h : FriendReachable db) : FriendInv db := by
  induction h with
  | init users => exact friendInv_init users
  | step op _ ih => exact friendInv_step _ op ih

theorem setStatus_no_pending_pair {db : FriendDB} (hinv : FriendInv db)
    {fr : FriendRequestRow} {s a : Nat} (hfrmem : fr ∈ db.requests)
    (hfrout : fr.outgoing_user_id = s) (hfrin : fr.incoming_user_id = a)
    (hrp : reqPending fr = true) :
    pendingIn (setStatusById fr.id "accepted" db.requests) s a = false ∧
    pendingIn (setStatusById fr.id "accepted" db.requests) a s = false := by
  constructor
  · cases hx : pendingIn (setStatusById fr.id "accepted" db.requests) s a with
    | false => rfl
    | true =>
      rw [pendingIn, List.any_eq_true] at hx
      rcases hx with ⟨w, hw, hpw⟩
      simp only [Bool.and_eq_true, beq_iff_eq] at hpw
      have hmem := mem_setStatus_pending (by decide) hw hpw.2
      have hgw : FriendRequestRepository.get_request db w.outgoing_user_id w.incoming_user_id
          = some w := get_request_eq_of_mem hinv.pairUnique hmem.1
      have hgfr : FriendRequestRepository.get_request db s a = some fr := by
        have := get_request_eq_of_mem hinv.pairUnique hfrmem
        rw [hfrout, hfrin] at this
        exact this
      rw [hpw.1.1, hpw.1.2, hgfr] at hgw
      have hwfr : w = fr := (Option.some_inj.mp hgw).symm
      rw [hwfr] at hmem
      simp at hmem
  · cases hx : pendingIn (setStatusById fr.id "accepted" db.requests) a s with
    | false => rfl
    | true =>
      have hold := pendingIn_setStatus (by decide) hx
      have hnm := hinv.noMutual fr hfrmem hrp
      rw [pendingReq, hfrin, hfrout] at hnm
      rw [hold] at hnm
      exact absurd hnm (by simp)

theorem accept_success_shape (db : FriendDB) (acc s : Nat) (hinv : FriendInv db)
    {fr : FriendRequestRow} (hfr : FriendRequestRepository.get_request db s acc = some fr)
    (hpend : fr.status = "pending") :
    FriendRequestService.accept_friend_request db acc s
      = (.ok "Friend request accepted",
         { db with requests := setStatusById fr.id "accepted" db.requests,
                   friends := db.friends ++ [⟨db.nextId, s, acc⟩],
                   nextId := db.nextId + 1 }) := by
  have hrp : reqPending fr = true := by rw [reqPending, hpend]; rfl
  rcases get_request_mem hfr with ⟨hfrmem, hfrout, hfrin⟩
  rw [FriendRequestService.accept_friend_request, hfr]
  dsimp only
  have hbne : (fr.status != "pending") = false := by rw [hpend]; rfl
  rw [hbne]
  simp only [Bool.false_eq_true, if_false]
  have hupd : (FriendRequestRepository.update_status db fr.id "accepted").2
      = { db with requests := setStatusById fr.id "accepted" db.requests } := by
    rw [FriendRequestRepository.update_status]
    cases hgb : FriendRequestRepository.get_by_id db fr.id with
    | none =>
      rw [FriendRequestRepository.get_by_id] at hgb
      have := List.find?_eq_none.mp hgb fr hfrmem
      simp at this
    | some r0 => rfl
  rw [hupd, FriendRepository.add_friendship]
  have hfnone : (db.friends.any fun f => f.user1_id == s && f.user2_id == acc) = false := by
    cases hx : db.friends.any fun f => f.user1_id == s && f.user2_id == acc with
    | false => rfl
    | true =>
      rcases List.any_eq_true.mp hx with ⟨f, hf, hpf⟩
      have hnf := hinv.notFriendsWhenPending fr hfrmem hrp
      rw [hfrout, hfrin, FriendRepository.are_friends, friendsIn] at hnf
      have hall : (db.friends.any fun f =>
          (f.user1_id == s && f.user2_id == acc) ||
          (f.user1_id == acc && f.user2_id == s)) = true :=
        List.any_eq_true.mpr ⟨f, hf, by rw [Bool.or_eq_true]; exact Or.inl hpf⟩
      rw [hall] at hnf
      exact absurd hnf (by simp)
  simp only [hfnone, Bool.false_eq_true, if_false]

/-- C6: in every reachable friendship store, immediately after a successful
acceptRequest on the request from `sender` to `accepter`, the friendship row
for the pair exists and no pending request remains between the two users in
either direction. -/
theorem accept_request_postcondition (db : FriendDB) (accepter sender : Nat)
    (msg : String) (db2 : FriendDB) (hreach : FriendReachable db)
    (h : FriendRequestService.accept_friend_request db accepter sender = (.ok msg, db2)) :
    FriendRepository.are_friends db2 sender accepter = true ∧
    pendingReq db2 sender accepter = false ∧
    pendingReq db2 accepter sender = false := by
  have hinv := friendInv_reachable hreach
  cases hfr : FriendRequestRepository.get_request db sender accepter with
  | none =>
    rw [FriendRequestService.accept_friend_request, hfr] at h
    simp at h
  | some fr =>
    by_cases hpend : fr.status = "pending"
    · have hshape := accept_success_shape db accepter sender hinv hfr hpend
      rw [hshape, Prod.mk.injEq] at h
      obtain ⟨hmsg, hdb⟩ := h
      subst hdb
      rcases get_request_mem hfr with ⟨hfrmem, hfrout, hfrin⟩
      have hrp : reqPending fr = true := by rw [reqPending, hpend]; rfl
      refine ⟨?_, ?_, ?_⟩
      · rw [FriendRepository.are_friends]
        simp only
        rw [friendsIn_append]
        have hone : friendsIn [⟨db.nextId, sender, accepter⟩] sender accepter = true := by
          rw [friendsIn]
          simp
        rw [hone, Bool.or_true]
      · rw [pendingReq]
        exact (setStatus_no_pending_pair hinv hfrmem hfrout hfrin hrp).1
      · rw [pendingReq]
        exact (setStatus_no_pending_pair hinv hfrmem hfrout hfrin hrp).2
    · rw [FriendRequestService.accept_friend_request, hfr] at h
      dsimp only at h
      have hbne : (fr.status != "pending") = true := bne_iff_ne.mpr hpend
      rw [hbne] at h
      simp at h

/-- C2 amended, positive half: a completed acceptRequest call on a reachable
store leaves either both effects (request accepted and friendship present)
or the store unchanged; the negative half — a crash between the two separate
commits does leave an accepted request with no friendship — is the
counterexample theorem. -/
theorem accept_completed_all_or_nothing (db : FriendDB) (accepter sender : Nat)
    (hreach : FriendReachable db) :
    (requestStatusIs (FriendRequestService.accept_friend_request db accepter sender).2
        sender accepter "accepted" = true ∧
     FriendRepository.are_friends
        (FriendRequestService.accept_friend_request db accepter sender).2
        sender accepter = true)
    ∨ (FriendRequestService.accept_friend_request db accepter sender).2 = db := by
  have hinv := friendInv_reachable hreach
  cases hfr : FriendRequestRepository.get_request db sender accepter with
  | none =>
    right
    rw [FriendRequestService.accept_friend_request, hfr]
  | some fr =>
    by_cases hpend : fr.status = "pending"
    · left
      have hshape := accept_success_shape db accepter sender hinv hfr hpend
      rw [hshape]
      dsimp only
      constructor
      · rw [requestStatusIs, FriendRequestRepository.get_request]
        simp only
        rw [find?_pair_setStatus]
        have hgfr : db.requests.find? (fun r =>
            r.outgoing_user_id == sender && r.incoming_user_id == accepter) = some fr := by
          have hcp := hfr
          rw [FriendRequestRepository.get_request] at hcp
          exact hcp
        rw [hgfr]
        simp
      · rw [FriendRepository.are_friends]
        simp only
        rw [friendsIn_append]
        have hone : friendsIn [⟨db.nextId, sender, accepter⟩] sender accepter = true := by
          rw [friendsIn]
          simp
        rw [hone, Bool.or_true]
    · right
      rw [FriendRequestService.accept_friend_request, hfr]
      dsimp only
      have hbne : (fr.status != "pending") = true := bne_iff_ne.mpr hpend
      rw [hbne]
      simp

/-- C2 witness: the all-or-nothing theorem applied to the concrete reachable
store in which user 1 has a pending request to user 2, with user 2
accepting. -/
theorem accept_completed_all_or_nothing_witness :
    (requestStatusIs (FriendRequestService.accept_friend_request sendScenario 2 1).2
        1 2 "accepted" = true ∧
     FriendRepository.are_friends
        (FriendRequestService.accept_friend_request sendScenario 2 1).2 1 2 = true)
    ∨ (FriendRequestService.accept_friend_request sendScenario 2 1).2 = sendScenario :=
  accept_completed_all_or_nothing sendScenario 2 1
    (FriendReachable.step (FriendOp.send 1 2) (FriendReachable.init [1, 2]))

/-- C2 counterexample: starting from the reachable store with a pending
request 1 → 2, stopping acceptRequest(2, 1) at the durable point between
its two commits (after update_status committed, before add_friendship
committed) leaves the request accepted with no friendship — the claimed
atomicity does not hold on the code, which commits the two writes in two
separate transactions. -/
theorem accept_crash_between_commits_cex :
    (FriendRequestService.accept_friend_request_crash_mid sendScenario 2 1).any
      (fun dbm => requestStatusIs dbm 1 2 "accepted"
        && !FriendRepository.are_friends dbm 1 2) = true := by
  decide

/-- C6 witness: the postcondition theorem applied to the concrete reachable
store in which user 1 has a pending request to user 2. -/
theorem accept_request_postcondition_witness :
    FriendRepository.are_friends
      (FriendRequestService.accept_friend_request sendScenario 2 1).2 1 2 = true ∧
    pendingReq (FriendRequestService.accept_friend_request sendScenario 2 1).2 1 2 = false ∧
    pendingReq (FriendRequestService.accept_friend_request sendScenario 2 1).2 2 1 = false :=
  accept_request_postcondition sendScenario 2 1 "Friend request accepted"
    (FriendRequestService.accept_friend_request sendScenario 2 1).2
    (FriendReachable.step (FriendOp.send 1 2) (FriendReachable.init [1, 2]))
    (by decide)

/-- C7: in every reachable circle store the owner of every circle holds a
membership row (inserted at creation and never removable): additionally,
an owner calling leave fails InvalidOperation, and an owner kicking
themselves fails InvalidOperation. -/
theorem circle_owner_always_member (db : CircleDB) (hreach : CircleReachable db) :
    (∀ c ∈ db.circles, CircleRepository.is_member db c.owner c.id = true) ∧
    (∀ circle_id c, CircleRepository.get_by_id db circle_id = some c →
      (CircleService.leave_circle db c.owner circle_id).1
        = .error (.http 400 "Circle owner cannot leave the circle. Delete it instead.") ∧
      (CircleService.kick_member db c.owner circle_id c.owner).1
        = .error (.http 400 "Cannot kick yourself from your own circle")) := by
  have hinv := circleInv_reachable hreach
  refine ⟨hinv.ownerMember, ?_⟩
  intro circle_id c hc
  constructor
  · rw [CircleService.leave_circle, hc]
    simp
  · rw [CircleService.kick_member, hc]
    simp

/-- C7 witness: the theorem applied to the reachable store in which user 1
created a public circle. -/
theorem circle_owner_always_member_witness :
    CircleRepository.is_member circleScenario 1 1 = true ∧
    (CircleService.leave_circle circleScenario 1 1).1
      = .error (.http 400 "Circle owner cannot leave the circle. Delete it instead.") ∧
    (CircleService.kick_member circleScenario 1 1 1).1
      = .error (.http 400 "Cannot kick yourself from your own circle") := by
  have h := circle_owner_always_member circleScenario
    (CircleReachable.step (CircleOp.create 1 "hiking" true) (CircleReachable.init [1]))
  refine ⟨?_, ?_, ?_⟩
  · exact h.1 ⟨1, "hiking", true, 1⟩ (by decide)
  · exact (h.2 1 ⟨1, "hiking", true, 1⟩ (by decide)).1
  · exact (h.2 1 ⟨1, "hiking", true, 1⟩ (by decide)).2

/-- C3: the claim fails on the code: an owner delete call never succeeds.
The `circle_membership.circle_id` foreign key (MySQL, RESTRICT, no cascade)
is always violated, because the owner membership row inserted at creation
still references the circle, so the DELETE commit raises IntegrityError and
neither the circle row nor any membership row is removed: in every
reachable store, delete on an existing circle by its owner returns the
untyped storage error with the store unchanged, while the claim (and the
repository test suite, which runs on SQLite without FK enforcement) expects
the circle and its membership rows to be gone. -/
theorem delete_circle_always_integrity_error (db : CircleDB) (circle_id : Nat) (c : Circle)
    (hreach : CircleReachable db)
    (hc : CircleRepository.get_by_id db circle_id = some c) :
    CircleService.delete_circle db c.owner circle_id
      = (.error (.integrityError "circle_membership.circle_id"), db) := by
  have hinv := circleInv_reachable hreach
  rcases get_by_id_mem hc with ⟨hm, hid⟩
  have hmem := hinv.ownerMember c hm
  rw [CircleRepository.is_member] at hmem
  rcases List.any_eq_true.mp hmem with ⟨m, hmm, hpm⟩
  simp only [Bool.and_eq_true, beq_iff_eq] at hpm
  have hfk : (db.memberships.any fun m => m.circle_id == c.id) = true :=
    List.any_eq_true.mpr ⟨m, hmm, by simp [hpm.2]⟩
  rw [CircleService.delete_circle, hc]
  dsimp only
  have howner : (c.owner != c.owner) = false := by simp
  rw [howner]
  simp only [Bool.false_eq_true, if_false]
  rw [CircleRepository.delete, hfk]
  simp

/-- C3 witness: the failing call evaluated at a concrete reachable input:
user 1 deletes the circle they own, gets the IntegrityError, and the store
is unchanged. -/
theorem delete_circle_always_integrity_error_witness :
    CircleService.delete_circle circleScenario 1 1
      = (.error (.integrityError "circle_membership.circle_id"), circleScenario) :=
  delete_circle_always_integrity_error circleScenario 1 ⟨1, "hiking", true, 1⟩
    (CircleReachable.step (CircleOp.create 1 "hiking" true) (CircleReachable.init [1]))
    (by decide)

/-- C4 counterexample: a store reachable by send-then-reject holds a
rejected row for the ordered pair (5, 6); a fresh sendRequest(5, 6) passes
every pre-check, hits the `unique_friend_request` constraint at insert time
and surfaces the raw storage error — not one of the typed Conflict failures
of the pre-check path. -/
theorem write_time_uniqueness_untyped_cex :
    (FriendRequestService.create_friend_request rejectedRowStore 5 6).1
      = .error (.integrityError "unique_friend_request") ∧
    (FriendRequestService.create_friend_request rejectedRowStore 5 6).1
      ≠ .error (.http 400 "Already friends with this user") ∧
    (FriendRequestService.create_friend_request rejectedRowStore 5 6).1
      ≠ .error (.http 400 "Friend request already sent") ∧
    (FriendRequestService.create_friend_request rejectedRowStore 5 6).1
      ≠ .error (.http 400 "This user has already sent you a friend request") := by
  decide

/-- C4 amended: a uniqueness violation surfaced at write time propagates as
the untyped storage IntegrityError: the friend-request service passes it
through unhandled, and the membership insert fails the same way at the
repository level — no manager converts it to the typed Conflict failure. -/
theorem write_time_uniqueness_gives_integrity_error (db : FriendDB) (cdb : CircleDB)
    (s r u cid : Nat)
    (hu : userExists db r = true) (hself : s ≠ r)
    (hfr : FriendRepository.are_friends db s r = false)
    (hp1 : (FriendRequestRepository.get_request db s r).any
      (fun q => q.status == "pending") = false)
    (hp2 : (FriendRequestRepository.get_request db r s).any
      (fun q => q.status == "pending") = false)
    (hrow : (FriendRequestRepository.get_request db s r).isSome = true)
    (hmem : CircleRepository.is_member cdb u cid = true) :
    FriendRequestService.create_friend_request db s r
      = (.error (.integrityError "unique_friend_request"), db) ∧
    CircleRepository.add_member cdb u cid
      = .error (.integrityError "unique_membership") := by
  have hselfb : (s == r) = false := beq_eq_false_iff_ne.mpr hself
  constructor
  · simp [FriendRequestService.create_friend_request, hu, hselfb, hfr, hp1, hp2,
      FriendRequestRepository.create_request, hrow]
  · simp [CircleRepository.add_member, hmem]

/-- C4 witness: the amended theorem applied to the rejected-row store and
to the circle store in which the owner membership row already exists. -/
theorem write_time_uniqueness_gives_integrity_error_witness :
    FriendRequestService.create_friend_request rejectedRowStore 5 6
      = (.error (.integrityError "unique_friend_request"), rejectedRowStore) ∧
    CircleRepository.add_member circleScenario 1 1
      = .error (.integrityError "unique_membership") :=
  write_time_uniqueness_gives_integrity_error rejectedRowStore circleScenario 5 6 1 1
    (by decide) (by decide) (by decide) (by decide) (by decide) (by decide) (by decide)

/-- C5 counterexample: in the reachable store where the request 1 → 2 was
rejected, a new sendRequest(1, 2) falls in the claim's "remaining cases"
(recipient exists, not self, not friends, no pending request in either
direction) yet does not succeed: the insert hits the unique constraint on
the ordered pair still occupied by the rejected row. -/
theorem send_request_nonpending_pair_cex :
    userExists rejectScenario 2 = true ∧ (1 : Nat) ≠ 2 ∧
    FriendRepository.are_friends rejectScenario 1 2 = false ∧
    pendingReq rejectScenario 1 2 = false ∧
    pendingReq rejectScenario 2 1 = false ∧
    (FriendRequestService.create_friend_request rejectScenario 1 2).1
      = .error (.integrityError "unique_friend_request") := by
  decide

/-- C5 amended: complete case analysis of sendRequest, in the order the
code checks: NotFound iff the recipient is absent; then InvalidOperation
iff self-request; then Conflict for already-friends, then for a pending
request in either direction (first row of the exact ordered pair); in the
remaining cases the call inserts and returns a pending row for the ordered
pair — except when a (necessarily non-pending) row already occupies that
ordered pair, where the insert surfaces the storage uniqueness error. -/
theorem create_friend_request_cases (db : FriendDB) (s r : Nat) :
    (userExists db r = false →
      FriendRequestService.create_friend_request db s r
        = (.error (.http 404 "Recipient user not found"), db)) ∧
    (userExists db r = true → s = r →
      FriendRequestService.create_friend_request db s r
        = (.error (.http 400 "Cannot send friend request to yourself"), db)) ∧
    (userExists db r = true → s ≠ r → FriendRepository.are_friends db s r = true →
      FriendRequestService.create_friend_request db s r
        = (.error (.http 400 "Already friends with this user"), db)) ∧
    (userExists db r = true → s ≠ r → FriendRepository.are_friends db s r = false →
      (FriendRequestRepository.get_request db s r).any (fun q => q.status == "pending") = true →
      FriendRequestService.create_friend_request db s r
        = (.error (.http 400 "Friend request already sent"), db)) ∧
    (userExists db r = true → s ≠ r → FriendRepository.are_friends db s r = false →
      (FriendRequestRepository.get_request db s r).any (fun q => q.status == "pending") = false →
      (FriendRequestRepository.get_request db r s).any (fun q => q.status == "pending") = true →
      FriendRequestService.create_friend_request db s r
        = (.error (.http 400 "This user has already sent you a friend request"), db)) ∧
    (userExists db r = true → s ≠ r → FriendRepository.are_friends db s r = false →
      (FriendRequestRepository.get_request db s r).any (fun q => q.status == "pending") = false →
      (FriendRequestRepository.get_request db r s).any (fun q => q.status == "pending") = false →
      FriendRequestRepository.get_request db s r = none →
      FriendRequestService.create_friend_request db s r
        = (.ok ⟨db.nextId, s, r, "pending"⟩,
           { db with requests := db.requests ++ [⟨db.nextId, s, r, "pending"⟩],
                     nextId := db.nextId + 1 })) ∧
    (userExists db r = true → s ≠ r → FriendRepository.are_friends db s r = false →
      (FriendRequestRepository.get_request db s r).any (fun q => q.status == "pending") = false →
      (FriendRequestRepository.get_request db r s).any (fun q => q.status == "pending") = false →
      (FriendRequestRepository.get_request db s r).isSome = true →
      FriendRequestService.create_friend_request db s r
        = (.error (.integrityError "unique_friend_request"), db)) := by
  refine ⟨?_, ?_, ?_, ?_, ?_, ?_, ?_⟩
  · intro h1
    simp [FriendRequestService.create_friend_request, h1]
  · intro h1 h2
    subst h2
    simp [FriendRequestService.create_friend_request, h1]
  · intro h1 h2 h3
    simp [FriendRequestService.create_friend_request, h1, beq_eq_false_iff_ne.mpr h2, h3]
  · intro h1 h2 h3 h4
    simp [FriendRequestService.create_friend_request, h1, beq_eq_false_iff_ne.mpr h2, h3, h4]
  · intro h1 h2 h3 h4 h5
    simp [FriendRequestService.create_friend_request, h1, beq_eq_false_iff_ne.mpr h2, h3, h4, h5]
  · intro h1 h2 h3 h4 h5 h6
    simp [FriendRequestService.create_friend_request, h1, beq_eq_false_iff_ne.mpr h2, h3, h4, h5,
      FriendRequestRepository.create_request, h6]
  · intro h1 h2 h3 h4 h5 h6
    simp [FriendRequestService.create_friend_request, h1, beq_eq_false_iff_ne.mpr h2, h3, h4, h5,
      FriendRequestRepository.create_request, h6]

/-- C5 witness: the case theorem applied concretely: a fresh store gives a
successful pending insert for (1, 2), and an unknown recipient 3 gives
NotFound. -/
theorem create_friend_request_cases_witness :
    FriendRequestService.create_friend_request (initFriendDB [1, 2]) 1 2
      = (.ok ⟨1, 1, 2, "pending"⟩,
         { initFriendDB [1, 2] with requests := [⟨1, 1, 2, "pending"⟩], nextId := 2 }) ∧
    FriendRequestService.create_friend_request (initFriendDB [1, 2]) 1 3
      = (.error (.http 404 "Recipient user not found"), initFriendDB [1, 2]) := by
  constructor
  · exact (create_friend_request_cases (initFriendDB [1, 2]) 1 2).2.2.2.2.2.1
      (by decide) (by decide) (by decide) (by decide) (by decide) (by decide)
  · exact (create_friend_request_cases (initFriendDB [1, 2]) 1 3).1 (by decide)

theorem event_get_by_id_mem {db : EventDB} {event_id : Nat} {e : EventRow}
    (h : EventRepository.get_by_id db event_id = some e) :
    e ∈ db.events ∧ e.id = event_id := by
  rw [EventRepository.get_by_id] at h
  refine ⟨List.mem_of_find?_eq_some h, ?_⟩
  have := List.find?_some h
  simpa using this

theorem update_event_success_shape (db : EventDB) (uid event_id : Nat)
    (udto : EventUpdateDTO) {e : EventRow} {db2 : EventDB}
    (h : EventService.update_event db uid event_id udto = (.ok e, db2)) :
    ∃ ev, EventRepository.get_by_id db event_id = some ev ∧
      e.name = udto.name.getD ev.name ∧
      e.description = (match udto.description with
        | some d => some d
        | none => ev.description) ∧
      e.start_at = udto.start_at.getD ev.start_at ∧
      e.end_at = udto.end_at.getD ev.end_at ∧
      (udto.state = none → e.state = ev.state) ∧
      e.id = ev.id ∧
      ¬(e.end_at ≤ e.start_at) ∧
      db2.ownerships = db.ownerships ∧
      db2.events = (db.events.map fun x => if x.id == e.id then e else x) := by
  rw [EventService.update_event] at h
  cases hg : EventRepository.get_by_id db event_id with
  | none =>
    rw [hg] at h
    simp at h
  | some ev =>
    rw [hg] at h
    dsimp only at h
    split at h
    · simp at h
    · refine ⟨ev, rfl, ?_⟩
      cases hst : udto.state with
      | none =>
        rw [hst] at h
        dsimp only at h
        split at h
        · simp at h
        · rename_i hok
          rw [Prod.mk.injEq, Except.ok.injEq] at h
          obtain ⟨he, hdb⟩ := h
          subst he
          refine ⟨rfl, rfl, rfl, rfl, fun _ => rfl, rfl, hok, ?_, ?_⟩
          · rw [← hdb]
            rfl
          · rw [← hdb]
            rfl
      | some sv =>
        rw [hst] at h
        dsimp only at h
        cases hov : EventState.ofValue sv with
        | none =>
          rw [hov] at h
          simp at h
        | some st =>
          rw [hov] at h
          dsimp only at h
          split at h
          · simp at h
          · rename_i hok
            rw [Prod.mk.injEq, Except.ok.injEq] at h
            obtain ⟨he, hdb⟩ := h
            subst he
            refine ⟨rfl, rfl, rfl, rfl, ?_, rfl, hok, ?_, ?_⟩
            · intro hn
              exact absurd hn (by simp)
            · rw [← hdb]
              rfl
            · rw [← hdb]
              rfl

theorem update_circle_success_shape (db : CircleDB) (uid circle_id : Nat)
    (dto : CircleUpdateDTO) {c : Circle} {db2 : CircleDB}
    (h : CircleService.update_circle db uid circle_id dto = (.ok c, db2)) :
    ∃ c0, CircleRepository.get_by_id db circle_id = some c0 ∧
      c.name = dto.name.getD c0.name ∧
      c.public = dto.public.getD c0.public ∧
      c.owner = c0.owner ∧ c.id = c0.id ∧
      db2.memberships = db.memberships ∧
      db2.circles = (db.circles.map fun x => if x.id == c.id then c else x) := by
  rw [CircleService.update_circle] at h
  cases hg : CircleRepository.get_by_id db circle_id with
  | none =>
    rw [hg] at h
    simp at h
  | some c0 =>
    rw [hg] at h
    dsimp only at h
    split at h
    · simp at h
    · rw [Prod.mk.injEq, Except.ok.injEq] at h
      obtain ⟨he, hdb⟩ := h
      subst he
      refine ⟨c0, rfl, rfl, rfl, rfl, rfl, ?_, ?_⟩
      · rw [← hdb]
        rfl
      · rw [← hdb]
        rfl

/-- C8: the `endAt > startAt` invariant: create rejects `endAt ≤ startAt`
with InvalidOperation, every successful create or update returns an event
with `startAt < endAt`, and update re-validates against the post-patch
values, failing InvalidOperation and leaving the store unchanged when they
violate the invariant. -/
theorem event_times_validated (db : EventDB) (uid event_id : Nat)
    (cdto : EventCreateDTO) (udto : EventUpdateDTO) (now : Int) :
    (cdto.end_at ≤ cdto.start_at →
      EventService.create_event db uid cdto now
        = (.error (.http 400 "Event end time must be after start time"), db)) ∧
    (∀ e db2, EventService.create_event db uid cdto now = (.ok e, db2) →
      e.start_at < e.end_at) ∧
    (∀ e db2, EventService.update_event db uid event_id udto = (.ok e, db2) →
      e.start_at < e.end_at) ∧
    (∀ ev, EventRepository.get_by_id db event_id = some ev →
      EventRepository.owns_event db uid event_id = true →
      udto.state = none →
      udto.end_at.getD ev.end_at ≤ udto.start_at.getD ev.start_at →
      EventService.update_event db uid event_id udto
        = (.error (.http 400 "Event end time must be after start time"), db)) := by
  refine ⟨?_, ?_, ?_, ?_⟩
  · intro hle
    simp [EventService.create_event, hle]
  · intro e db2 h
    rw [EventService.create_event] at h
    split at h
    · simp at h
    · by_cases hc : cdto.start_at > now
      · rw [if_pos hc] at h
        have hup : EventState.getattr "upcoming" = .error (.attributeError "upcoming") := by
          decide
        rw [hup] at h
        simp at h
      · rw [if_neg hc] at h
        have hpa : EventState.getattr "passed" = .error (.attributeError "passed") := by
          decide
        rw [hpa] at h
        simp at h
  · intro e db2 h
    rcases update_event_success_shape db uid event_id udto h with
      ⟨ev, hg, hname, hdesc, hstart, hend, hstate, hid, hok, hown, hevents⟩
    omega
  · intro ev hg hown hst hviol
    rw [EventService.update_event, hg]
    dsimp only
    rw [hown]
    simp only [Bool.not_true, Bool.false_eq_true, if_false]
    rw [hst]
    dsimp only
    rw [if_pos hviol]

/-- C8 witness: concrete instances: a create call with end before start is
rejected; an update that only moves `start_at` past the stored `end_at` is
rejected post-patch; an update providing a valid later `end_at` succeeds
with the invariant holding. -/
theorem event_times_validated_witness :
    EventService.create_event ⟨[], [], 1, 1⟩ 1 ⟨"e", none, 50, 20⟩ 0
      = (.error (.http 400 "Event end time must be after start time"), ⟨[], [], 1, 1⟩) ∧
    EventService.update_event ⟨[⟨1, "e", none, 0, 10, .PASSED⟩], [⟨1, 7, 1⟩], 2, 2⟩ 7 1
        ⟨none, none, some 50, none, none⟩
      = (.error (.http 400 "Event end time must be after start time"),
         ⟨[⟨1, "e", none, 0, 10, .PASSED⟩], [⟨1, 7, 1⟩], 2, 2⟩) ∧
    (⟨1, "e", none, 0, 99, EventState.PASSED⟩ : EventRow).start_at
      < (⟨1, "e", none, 0, 99, EventState.PASSED⟩ : EventRow).end_at := by
  have h1 := (event_times_validated ⟨[], [], 1, 1⟩ 1 1 ⟨"e", none, 50, 20⟩
    ⟨none, none, some 50, none, none⟩ 0).1 (by decide)
  have h2 := (event_times_validated ⟨[⟨1, "e", none, 0, 10, .PASSED⟩], [⟨1, 7, 1⟩], 2, 2⟩ 7 1
    ⟨"e", none, 50, 20⟩ ⟨none, none, some 50, none, none⟩ 0).2.2.2
    ⟨1, "e", none, 0, 10, .PASSED⟩ (by decide) (by decide) (by decide) (by decide)
  have h3 := (event_times_validated ⟨[⟨1, "e", none, 0, 10, .PASSED⟩], [⟨1, 7, 1⟩], 2, 2⟩ 7 1
    ⟨"e", none, 50, 20⟩ ⟨none, none, none, some 99, none⟩ 0).2.2.1
    ⟨1, "e", none, 0, 99, .PASSED⟩
    (EventService.update_event ⟨[⟨1, "e", none, 0, 10, .PASSED⟩], [⟨1, 7, 1⟩], 2, 2⟩ 7 1
      ⟨none, none, none, some 99, none⟩).2 (by decide)
  exact ⟨h1, h2, h3⟩

/-- C9: for successful event and circle updates, every field whose patch
value is absent keeps its stored value, rows of other entities are
untouched (an event update leaves the ownership table and all other event
rows unchanged; a circle update leaves the membership table and all other
circle rows unchanged), and a stored event description can never be reset
to null through update. -/
theorem update_frame_preserves_unpatched (db : EventDB) (cdb : CircleDB)
    (uid cuid event_id circle_id : Nat) (udto : EventUpdateDTO) (cdto : CircleUpdateDTO) :
    (∀ ev e db2, EventRepository.get_by_id db event_id = some ev →
      EventService.update_event db uid event_id udto = (.ok e, db2) →
      (udto.name = none → e.name = ev.name) ∧
      (udto.description = none → e.description = ev.description) ∧
      (udto.start_at = none → e.start_at = ev.start_at) ∧
      (udto.end_at = none → e.end_at = ev.end_at) ∧
      (udto.state = none → e.state = ev.state) ∧
      (∀ d, ev.description = some d → e.description ≠ none) ∧
      db2.ownerships = db.ownerships ∧
      (∀ q ∈ db.events, q.id ≠ event_id → q ∈ db2.events)) ∧
    (∀ c0 c db2, CircleRepository.get_by_id cdb circle_id = some c0 →
      CircleService.update_circle cdb cuid circle_id cdto = (.ok c, db2) →
      (cdto.name = none → c.name = c0.name) ∧
      (cdto.public = none → c.public = c0.public) ∧
      c.owner = c0.owner ∧ c.id = c0.id ∧
      db2.memberships = cdb.memberships ∧
      (∀ q ∈ cdb.circles, q.id ≠ circle_id → q ∈ db2.circles)) := by
  constructor
  · intro ev e db2 hg h
    rcases update_event_success_shape db uid event_id udto h with
      ⟨ev2, hg2, hname, hdesc, hstart, hend, hstate, hid, hok, hown, hevents⟩
    rw [hg] at hg2
    have hev : ev2 = ev := (Option.some_inj.mp hg2).symm
    subst hev
    refine ⟨?_, ?_, ?_, ?_, hstate, ?_, hown, ?_⟩
    · intro hn
      rw [hn] at hname
      exact hname
    · intro hn
      rw [hn] at hdesc
      exact hdesc
    · intro hn
      rw [hn] at hstart
      exact hstart
    · intro hn
      rw [hn] at hend
      exact hend
    · intro d hd
      rw [hdesc]
      cases hcase : udto.description with
      | some d2 => simp
      | none =>
        rw [hd]
        simp
    · intro q hq hqid
      rw [hevents, List.mem_map]
      refine ⟨q, hq, ?_⟩
      rw [if_neg]
      simp only [beq_iff_eq]
      intro hEq
      rw [hid] at hEq
      exact hqid (by rw [hEq, (event_get_by_id_mem hg).2])
  · intro c0 c db2 hg h
    rcases update_circle_success_shape cdb cuid circle_id cdto h with
      ⟨c1, hg2, hname, hpublic, howner, hid, hmem, hcircles⟩
    rw [hg] at hg2
    have hc1 : c1 = c0 := (Option.some_inj.mp hg2).symm
    subst hc1
    refine ⟨?_, ?_, howner, hid, hmem, ?_⟩
    · intro hn
      rw [hn] at hname
      exact hname
    · intro hn
      rw [hn] at hpublic
      exact hpublic
    · intro q hq hqid
      rw [hcircles, List.mem_map]
      refine ⟨q, hq, ?_⟩
      rw [if_neg]
      simp only [beq_iff_eq]
      intro hEq
      rw [hid] at hEq
      exact hqid (by rw [hEq, (get_by_id_mem hg).2])

/-- C9 witness: the frame theorem applied to a concrete event update that
only changes `end_at` (name, description, start and state are retained,
ownership rows untouched) and a concrete circle update that only changes
`public`. -/
theorem update_frame_preserves_unpatched_witness :
    ((EventService.update_event ⟨[⟨1, "e", some "d", 0, 10, .PASSED⟩], [⟨1, 7, 1⟩], 2, 2⟩ 7 1
        ⟨none, none, none, some 99, none⟩).2.ownerships
      = [⟨1, 7, 1⟩]) ∧
    ((CircleService.update_circle circleScenario 1 1 ⟨none, some false⟩).2.memberships
      = circleScenario.memberships) := by
  constructor
  · exact ((update_frame_preserves_unpatched
      ⟨[⟨1, "e", some "d", 0, 10, .PASSED⟩], [⟨1, 7, 1⟩], 2, 2⟩ circleScenario 7 1 1 1
      ⟨none, none, none, some 99, none⟩ ⟨none, some false⟩).1
      ⟨1, "e", some "d", 0, 10, .PASSED⟩ ⟨1, "e", some "d", 0, 99, .PASSED⟩
      (EventService.update_event ⟨[⟨1, "e", some "d", 0, 10, .PASSED⟩], [⟨1, 7, 1⟩], 2, 2⟩ 7 1
        ⟨none, none, none, some 99, none⟩).2
      (by decide) (by decide)).2.2.2.2.2.2.1
  · exact ((update_frame_preserves_unpatched
      ⟨[⟨1, "e", some "d", 0, 10, .PASSED⟩], [⟨1, 7, 1⟩], 2, 2⟩ circleScenario 7 1 1 1
      ⟨none, none, none, some 99, none⟩ ⟨none, some false⟩).2
      ⟨1, "hiking", true, 1⟩ ⟨1, "hiking", false, 1⟩
      (CircleService.update_circle circleScenario 1 1 ⟨none, some false⟩).2
      (by decide) (by decide)).2.2.2.2.1

/-- C10: circle reads are unrestricted: the three read operations take no
caller identity at all; each fails with NotFound exactly when the circle is
absent, succeeds for every existing circle (listEvents with the empty
list), and never returns Forbidden. -/
theorem circle_reads_unrestricted (db : CircleDB) (circle_id : Nat) :
    (CircleRepository.get_by_id db circle_id = none →
      CircleService.get_circle_by_id db circle_id = .error (.http 404 "Circle not found") ∧
      CircleService.get_circle_members db circle_id = .error (.http 404 "Circle not found") ∧
      CircleService.get_circle_events db circle_id = .error (.http 404 "Circle not found")) ∧
    (∀ c, CircleRepository.get_by_id db circle_id = some c →
      CircleService.get_circle_by_id db circle_id = .ok c ∧
      CircleService.get_circle_members db circle_id
        = .ok (CircleRepository.get_members db circle_id) ∧
      CircleService.get_circle_events db circle_id = .ok []) ∧
    (∀ detail, CircleService.get_circle_by_id db circle_id ≠ .error (.http 403 detail) ∧
      CircleService.get_circle_members db circle_id ≠ .error (.http 403 detail) ∧
      CircleService.get_circle_events db circle_id ≠ .error (.http 403 detail)) := by
  refine ⟨?_, ?_, ?_⟩
  · intro hn
    refine ⟨?_, ?_, ?_⟩ <;>
      simp [CircleService.get_circle_by_id, CircleService.get_circle_members,
        CircleService.get_circle_events, hn]
  · intro c hc
    refine ⟨?_, ?_, ?_⟩ <;>
      simp [CircleService.get_circle_by_id, CircleService.get_circle_members,
        CircleService.get_circle_events, hc]
  · intro detail
    cases hc : CircleRepository.get_by_id db circle_id with
    | none =>
      refine ⟨?_, ?_, ?_⟩ <;>
        simp [CircleService.get_circle_by_id, CircleService.get_circle_members,
          CircleService.get_circle_events, hc]
    | some c =>
      refine ⟨?_, ?_, ?_⟩ <;>
        simp [CircleService.get_circle_by_id, CircleService.get_circle_members,
          CircleService.get_circle_events, hc]

/-- C10 witness: the theorem applied to the concrete store in which circle 1
exists (any caller can read it and list its members) and to the absent
circle 2 (NotFound for every read). -/
theorem circle_reads_unrestricted_witness :
    (CircleService.get_circle_members circleScenario 1 = .ok [1] ∧
     CircleService.get_circle_events circleScenario 1 = .ok []) ∧
    CircleService.get_circle_members circleScenario 2
      = .error (.http 404 "Circle not found") := by
  constructor
  · have h := (circle_reads_unrestricted circleScenario 1).2.1
      ⟨1, "hiking", true, 1⟩ (by decide)
    refine ⟨?_, h.2.2⟩
    rw [h.2.1]
    decide
  · exact ((circle_reads_unrestricted circleScenario 2).1 (by decide)).2.1

end OutSource
